import Mathlib

/-!
# Verification of the MonetDB5 coercion optimizer (`opt_coercion.c`)

A shallow embedding of `src/MonetDB5/optimizer/opt_coercion.c`: the MAL
instruction/program model it operates on, the identity-coercion eliminator
(`coercionOptimizerStep`), the narrowing rewriter
(`coercionOptimizerCalcStep`), the narrowing-candidate recorder (the
`HAVE_HGE` block), and the pass driver (`OPTcoercionImplementation`).

The pass's collaborator operations (`getArg`, `getVarType`, `getColumnType`,
`ATOMname`, `removeInstruction`, variable-constant queries) live in the MAL
runtime, which is not part of the extracted sources; they are modelled from
the spec's description of the required collaborator operations (section 6 of
the spec) and of the data model (section 3).
-/

set_option autoImplicit false

namespace OptCoercion

/-- Modelled from the spec: atomic type tags drawn from the ordered
numeric-width hierarchy (`bte < sht < int < lng < hge`).  The missing MAL
runtime defines these tags as C constants; only their strict ordering and
their canonical names matter to the pass. -/
def TYPE_bte : Nat := 1

/-- Modelled from the spec: the `sht` atomic type tag. -/
def TYPE_sht : Nat := 2

/-- Modelled from the spec: the `int` atomic type tag. -/
def TYPE_int : Nat := 3

/-- Modelled from the spec: the `lng` atomic type tag. -/
def TYPE_lng : Nat := 4

/-- Modelled from the spec: the `hge` (wide) atomic type tag. -/
def TYPE_hge : Nat := 5

/-- Modelled from the spec: a variable's static type is either a scalar
atomic type or a column (BAT) of an atomic type. -/
inductive MalType where
  | atom : Nat → MalType
  | bat : Nat → MalType
deriving DecidableEq

instance : Inhabited MalType := ⟨MalType.atom 0⟩

/-- Modelled from the spec: canonical textual name of an atomic type tag
(the MAL runtime's atom table is not in the extracted sources). -/
def ATOMnameBase : Nat → String
  | 1 => "bte"
  | 2 => "sht"
  | 3 => "int"
  | 4 => "lng"
  | 5 => "hge"
  | _ => "?"

/-- Modelled from the spec: `ATOMname` on a full MAL type; a column type
never carries the bare name of an atomic type. -/
def ATOMname : MalType → String
  | MalType.atom t => ATOMnameBase t
  | MalType.bat t => "bat_" ++ ATOMnameBase t

/-- Modelled from the spec: `getColumnType` strips any column/batch wrapper
from a type, yielding the base scalar type tag. -/
def getColumnType : MalType → Nat
  | MalType.atom t => t
  | MalType.bat t => t

/-- Modelled from the spec: per-variable record of the MAL block's symbol
table: a static type, fixed at IR construction time, and an optional
compile-time constant value. -/
structure VarInfo where
  vtype : MalType
  isConst : Bool
  cval : Int
deriving DecidableEq

instance : Inhabited VarInfo := ⟨⟨MalType.atom 0, false, 0⟩⟩

/-- An IR instruction (`InstrRecord` in MAL): opcode as a module/function
pair, result count `retc`, and the argument-variable list (`argc` is its
length; the first `retc` slots are results, the rest operands). -/
structure InstrRecord where
  modId : Option String
  fcnId : Option String
  retc : Nat
  argv : List Nat
deriving DecidableEq

instance : Inhabited InstrRecord := ⟨⟨none, none, 0, []⟩⟩

/-- `p->argc`: number of argument slots. -/
def InstrRecord.argc (p : InstrRecord) : Nat := p.argv.length

/-- A MAL block (`MalBlkRecord`): the ordered instruction list and the
variable table. -/
structure MalBlkRecord where
  instrs : List InstrRecord
  vars : List VarInfo
deriving DecidableEq

/-- `mb->stop`: number of instructions in the block. -/
def MalBlkRecord.stop (mb : MalBlkRecord) : Nat := mb.instrs.length

/-- Modelled from the spec: `getArg(p,k)` reads the variable identifier in
argument slot `k` (out-of-range reads yield variable 0). -/
def getArg (p : InstrRecord) (k : Nat) : Nat := p.argv.getD k 0

/-- Modelled from the spec: `getVarType(mb,v)` reads variable `v`'s static
type from the block's variable table. -/
def getVarType (mb : MalBlkRecord) (v : Nat) : MalType :=
  (mb.vars.getD v default).vtype

/-- Modelled from the spec: `isVarConstant(mb,v)` tests whether variable `v`
holds a compile-time constant. -/
def isVarConstant (mb : MalBlkRecord) (v : Nat) : Bool :=
  (mb.vars.getD v default).isConst

/-- Modelled from the spec: `getVarConstant(mb,v).val.ival` reads the
constant value of variable `v`. -/
def getVarConstant (mb : MalBlkRecord) (v : Nat) : Int :=
  (mb.vars.getD v default).cval

/-- `getArgType(mb,p,k)`: static type of the variable in slot `k`. -/
def getArgType (mb : MalBlkRecord) (p : InstrRecord) (k : Nat) : MalType :=
  getVarType mb (getArg p k)

/-- Modelled from the spec: `getInstrPtr(mb,i)` enumerates instructions by
index. -/
def getInstrPtr (mb : MalBlkRecord) (i : Nat) : InstrRecord :=
  mb.instrs.getD i default

/-- `setArg`: store variable `v` in argument slot `k` (the C writes
`p->argv[k]`, an in-place update). -/
def setArg (p : InstrRecord) (k v : Nat) : InstrRecord :=
  { p with argv := p.argv.set k v }

/-- Replace instruction `i` of the block (in-place mutation through the
instruction pointer in the C). -/
def setInstr (mb : MalBlkRecord) (i : Nat) (p : InstrRecord) : MalBlkRecord :=
  { mb with instrs := mb.instrs.set i p }

/-- Interned name `batcalcRef`. -/
def batcalcRef : String := "batcalc"

/-- Interned name `calcRef = putName("calc",4)`. -/
def calcRef : String := "calc"

/-- Interned name `hgeRef`. -/
def hgeRef : String := "hge"

/-- Interned name `plusRef`. -/
def plusRef : String := "+"

/-- Interned name `minusRef`. -/
def minusRef : String := "-"

/-- Interned name `mulRef`. -/
def mulRef : String := "*"

/-- Interned name `divRef`. -/
def divRef : String := "/"

/-- The scratch `Coercion` record of `opt_coercion.c`. -/
structure Coercion where
  pc : Nat
  fromtype : Nat
  totype : Nat
  src : Nat
  digits : Int
  scale : Int
deriving DecidableEq

/-- The zero-filled record produced by `GDKzalloc`. -/
def zeroCoercion : Coercion := ⟨0, 0, 0, 0, 0, 0⟩

instance : Inhabited Coercion := ⟨zeroCoercion⟩

/-- The zero-initialized Narrowing-Candidate Table
(`GDKzalloc(sizeof(Coercion) * mb->vtop)`), modelled as a total map from
variable identifiers. -/
def zeroTable : Nat → Coercion := fun _ => zeroCoercion

/-- The use-site patch loop of `coercionOptimizerStep`: in one instruction's
argument list, replace `a` by `b` in every slot with absolute index `≥ retc`
(operand slots only); `n` is the absolute index of the list's first
element. -/
def rewriteArgs (retc a b : Nat) : Nat → List Nat → List Nat
  | _, [] => []
  | n, v :: vs =>
      (if retc ≤ n ∧ v = a then b else v) :: rewriteArgs retc a b (n + 1) vs

/-- Apply the patch loop to one instruction (`for (k = p->retc; k < p->argc;
k++) if (p->argv[k] == a) p->argv[k] = b`). -/
def rewriteUse (a b : Nat) (q : InstrRecord) : InstrRecord :=
  { q with argv := rewriteArgs q.retc a b 0 q.argv }

/-- `removeInstruction(mb,p)` followed by the patch loop of
`coercionOptimizerStep`: drop the instruction at index `i` (shifting later
instructions down, modelled from the spec's removal collaborator) and patch
every instruction from position `i` to the end. -/
def removeAndPatch (a b : Nat) : Nat → List InstrRecord → List InstrRecord
  | _, [] => []
  | 0, _ :: qs => qs.map (rewriteUse a b)
  | n + 1, q :: qs => q :: removeAndPatch a b n qs

/-- `coercionOptimizerStep(mb,i,p)`: the identity-coercion eliminator.
Returns the updated block and the C function's `int` result (1 when the
instruction was removed, 0 otherwise).  A null `fcnId` never matches an atom
name. -/
def coercionOptimizerStep (mb : MalBlkRecord) (i : Nat) : MalBlkRecord × Nat :=
  let p := getInstrPtr mb i
  let a := getArg p 0
  let b := getArg p 1
  let t := getVarType mb b
  if getVarType mb a ≠ t then (mb, 0)
  else
    match p.fcnId with
    | none => (mb, 0)
    | some f =>
        if f = ATOMname t then
          ({ mb with instrs := removeAndPatch a b i mb.instrs }, 1)
        else (mb, 0)

/-- The arithmetic-function test of `coercionOptimizerCalcStep`:
`getFunctionId(p) == plusRef || ... || *getFunctionId(p) == '%'`. -/
def isCalcArithFcn (f : String) : Bool :=
  f = plusRef || f = minusRef || f = mulRef || f = divRef || f.take 1 = "%"

/-- `coercionOptimizerCalcStep(mb,i,coerce)`: the narrowing rewriter.  For a
`batcalc` arithmetic instruction with three argument slots, each operand
slot whose base type equals the result's base type and whose candidate
entry has a nonzero source of strictly narrower recorded type is replaced
by the candidate's source variable. -/
def coercionOptimizerCalcStep (mb : MalBlkRecord) (i : Nat)
    (coerce : Nat → Coercion) : MalBlkRecord :=
  let p := getInstrPtr mb i
  if p.modId ≠ some batcalcRef ∨ p.fcnId = none then mb
  else if (¬ ∃ f, p.fcnId = some f ∧ isCalcArithFcn f) ∨ p.argc ≠ 3 then mb
  else
    let r := getColumnType (getVarType mb (getArg p 0))
    let a := getColumnType (getVarType mb (getArg p 1))
    let b := getColumnType (getVarType mb (getArg p 2))
    let p1 :=
      if a = r ∧ (coerce (getArg p 1)).src ≠ 0 ∧
          (coerce (getArg p 1)).fromtype < r then
        setArg p 1 (coerce (getArg p 1)).src
      else p
    let p2 :=
      if b = r ∧ (coerce (getArg p1 2)).src ≠ 0 ∧
          (coerce (getArg p1 2)).fromtype < r then
        setArg p1 2 (coerce (getArg p1 2)).src
      else p1
    setInstr mb i p2

/-- The `HAVE_HGE` candidate-recording block of `OPTcoercionImplementation`:
for `batcalc.hge` with one result, five argument slots and constant
precision/scale arguments, record a narrowing candidate keyed by the result
variable. -/
def coercionRecordHge (mb : MalBlkRecord) (i : Nat)
    (coerce : Nat → Coercion) : Nat → Coercion :=
  let p := getInstrPtr mb i
  if p.modId = some batcalcRef ∧ p.fcnId = some hgeRef ∧ p.retc = 1 ∧
      p.argc = 5 ∧ isVarConstant mb (getArg p 4) ∧
      isVarConstant mb (getArg p 3) then
    fun v =>
      if v = getArg p 0 then
        { pc := i
          totype := TYPE_hge
          src := getArg p 2
          fromtype := getColumnType (getArgType mb p 2)
          digits := getVarConstant mb (getArg p 3)
          scale := getVarConstant mb (getArg p 4) }
      else coerce v
  else coerce

/-- Result of one iteration of the driver loop's body. -/
structure StepOut where
  mb : MalBlkRecord
  coerce : Nat → Coercion
  next : Nat
  inc : Nat

/-- One iteration of the driver loop of `OPTcoercionImplementation` at index
`i`: skip unresolvable opcodes, record an `hge` candidate, run the
narrowing rewriter, and for `calc` instructions with two argument slots run
the identity-coercion eliminator (staying at the same index after a
removal: `actions += k; if (k) i--;`). -/
def OPTcoercionBody (mb : MalBlkRecord) (coerce : Nat → Coercion)
    (i : Nat) : StepOut :=
  let p := getInstrPtr mb i
  if p.modId = none then ⟨mb, coerce, i + 1, 0⟩
  else
    let c2 := coercionRecordHge mb i coerce
    let mb2 := coercionOptimizerCalcStep mb i c2
    let p2 := getInstrPtr mb2 i
    if p2.modId = some calcRef ∧ p2.argc = 2 then
      let s := coercionOptimizerStep mb2 i
      ⟨s.1, c2, if s.2 ≠ 0 then i else i + 1, s.2⟩
    else ⟨mb2, c2, i + 1, 0⟩

/-- The driver loop `for (i = 1; i < mb->stop; i++)`, with explicit fuel.
Each iteration either advances the index or removes an instruction, so
`mb.stop` units of fuel always suffice (`OPTcoercionLoop_stop_actions`
below certifies that the measure `stop - i` decreases each iteration). -/
def OPTcoercionLoop (fuel : Nat) (mb : MalBlkRecord)
    (coerce : Nat → Coercion) (i actions : Nat) : MalBlkRecord × Nat :=
  match fuel with
  | 0 => (mb, actions)
  | fuel' + 1 =>
      if i < mb.stop then
        let s := OPTcoercionBody mb coerce i
        OPTcoercionLoop fuel' s.mb s.coerce s.next (actions + s.inc)
      else (mb, actions)

/-- `OPTcoercionImplementation(cntxt,mb,stk,pci)`: the full pass.  `cntxt`,
`stk` and `pci` are unused in the source and omitted.  The allocation
outcome of `GDKzalloc` is a boolean parameter (modelled from the spec's
degraded-mode description): on failure the pass returns 0 actions before
touching the program. -/
def OPTcoercionImplementation (mb : MalBlkRecord) (allocOk : Bool) :
    MalBlkRecord × Nat :=
  if allocOk then OPTcoercionLoop mb.stop mb zeroTable 1 0
  else (mb, 0)

/-! ## Concrete programs for the spec's scenarios -/

/-- Scenario program for the narrowing rewriter (spec scenarios 2 and 3):
instruction 0 is the header slot; instruction 1 is
`w = batcalc.hge(c, x, digits, scale)` with `w` the wide-typed variable 2,
`x` the variable 1 of column type `xt`, and constant digits/scale variables
4 and 5; instruction 2 is `r = batcalc.+(w, w)` with `r` the variable 3 of
column type `rt`. -/
def mkP34 (rt xt : Nat) : MalBlkRecord :=
  { instrs :=
      [ ⟨none, none, 0, []⟩,
        ⟨some batcalcRef, some hgeRef, 1, [2, 6, 1, 4, 5]⟩,
        ⟨some batcalcRef, some plusRef, 1, [3, 2, 2]⟩ ],
    vars :=
      [ default,
        ⟨MalType.bat xt, false, 0⟩,
        ⟨MalType.bat TYPE_hge, false, 0⟩,
        ⟨MalType.bat rt, false, 0⟩,
        ⟨MalType.atom TYPE_int, true, 18⟩,
        ⟨MalType.atom TYPE_int, true, 2⟩,
        ⟨MalType.atom 0, false, 0⟩ ] }

/-- Expected result of the pass on `mkP34 TYPE_hge xt`: both operand slots
of the arithmetic instruction rewritten to the narrow source variable 1. -/
def mkP34out (xt : Nat) : MalBlkRecord :=
  { instrs :=
      [ ⟨none, none, 0, []⟩,
        ⟨some batcalcRef, some hgeRef, 1, [2, 6, 1, 4, 5]⟩,
        ⟨some batcalcRef, some plusRef, 1, [3, 1, 1]⟩ ],
    vars := (mkP34 TYPE_hge xt).vars }

/-- Scenario program for chained identity casts (spec scenario 4): header;
`y = calc.int(x)` (variables 2 and 1, both of type `int`);
`z = calc.int(y)` (variables 3 and 2); a foreign use `u = user.f(z)`
(variables 4 and 3). -/
def P9 : MalBlkRecord :=
  { instrs :=
      [ ⟨none, none, 0, []⟩,
        ⟨some calcRef, some "int", 1, [2, 1]⟩,
        ⟨some calcRef, some "int", 1, [3, 2]⟩,
        ⟨some "user", some "f", 1, [4, 3]⟩ ],
    vars :=
      [ default,
        ⟨MalType.atom TYPE_int, false, 0⟩,
        ⟨MalType.atom TYPE_int, false, 0⟩,
        ⟨MalType.atom TYPE_int, false, 0⟩,
        ⟨MalType.atom TYPE_int, false, 0⟩ ] }

/-- Expected result of the pass on `P9`: both casts removed, the use
rewritten to refer directly to variable 1 (`x`). -/
def P9out : MalBlkRecord :=
  { instrs :=
      [ ⟨none, none, 0, []⟩,
        ⟨some "user", some "f", 1, [4, 1]⟩ ],
    vars := P9.vars }

/-- A `calc` instruction with two result slots and no operand
(`retc = 2`, `argc = 2`), whose two argument variables have the same type
`int` and whose function name is the atom's name. -/
def P7 : MalBlkRecord :=
  { instrs :=
      [ ⟨none, none, 0, []⟩,
        ⟨some calcRef, some "int", 2, [1, 2]⟩ ],
    vars :=
      [ default,
        ⟨MalType.atom TYPE_int, false, 0⟩,
        ⟨MalType.atom TYPE_int, false, 0⟩ ] }

/-- Result of the pass on `P7`: the two-result instruction is removed. -/
def P7out : MalBlkRecord := { instrs := [ ⟨none, none, 0, []⟩ ], vars := P7.vars }

/-- A concrete Narrowing-Candidate Table with one recorded entry: variable
2 was constructed from source variable 1 of base type `int`. -/
def cTable : Nat → Coercion :=
  fun v => if v = 2 then ⟨1, TYPE_int, TYPE_hge, 1, 18, 2⟩ else zeroCoercion

/-! ## Specification-side devices for the idempotence argument -/

/-- The Narrowing-Candidate Table the driver has accumulated on reaching
index `j` of a program it has not modified: the recorder folded over
indices `1 .. j-1` (index 0 is the header slot the driver never visits). -/
def tableUpto (mb : MalBlkRecord) : Nat → (Nat → Coercion)
  | 0 => zeroTable
  | 1 => zeroTable
  | j + 2 => coercionRecordHge mb (j + 1) (tableUpto mb (j + 1))

/-- Index `j` of `mb` is stable: one driver iteration at `j`, starting from
the table the driver would have accumulated there, changes nothing —
it leaves the program alone, extends the table canonically, advances to
`j + 1` and performs no action. -/
def StableAt (mb : MalBlkRecord) (j : Nat) : Prop :=
  (OPTcoercionBody mb (tableUpto mb j) j).mb = mb ∧
  (OPTcoercionBody mb (tableUpto mb j) j).coerce = tableUpto mb (j + 1) ∧
  (OPTcoercionBody mb (tableUpto mb j) j).next = j + 1 ∧
  (OPTcoercionBody mb (tableUpto mb j) j).inc = 0

/-- Well-formedness of a candidate table: every live entry's recorded
`fromtype` is the base type of its recorded source variable (exactly what
the recorder writes). -/
def TableOK (mb : MalBlkRecord) (c : Nat → Coercion) : Prop :=
  ∀ v, (c v).src ≠ 0 →
    (c v).fromtype = getColumnType (getVarType mb ((c v).src))

/-! ## Theorems -/

theorem getD_set_self {α : Type} (l : List α) (a d : α) (i : Nat)
    (h : i < l.length) : (l.set i a).getD i d = a := by
  simp [List.getD, List.getElem?_set_self, h]

theorem getD_set_ne {α : Type} (l : List α) (a d : α) (i j : Nat)
    (h : j ≠ i) : (l.set i a).getD j d = l.getD j d := by
  simp [List.getD, List.getElem?_set_ne (Ne.symm h)]

theorem set_getD_self {α : Type} (l : List α) (d : α) (i : Nat) :
    l.set i (l.getD i d) = l := by
  apply List.ext_getElem?
  intro n
  by_cases hn : n = i
  · subst hn
    by_cases h : n < l.length
    · simp [List.getElem?_set_self, h, List.getD, List.getElem?_eq_getElem h]
    · rw [List.set_eq_of_length_le (Nat.le_of_not_lt h)]
  · simp [List.getElem?_set_ne (Ne.symm hn)]

theorem default_modId_none : (default : InstrRecord).modId = none := rfl

theorem lt_stop_of_modId {mb : MalBlkRecord} {i : Nat}
    (h : (getInstrPtr mb i).modId ≠ none) : i < mb.stop := by
  by_contra hlt
  apply h
  unfold getInstrPtr
  rw [List.getD_eq_default _ _ (Nat.le_of_not_lt hlt)]
  rfl

theorem getInstrPtr_setInstr_self (mb : MalBlkRecord) (i : Nat)
    (q : InstrRecord) (h : i < mb.stop) :
    getInstrPtr (setInstr mb i q) i = q :=
  getD_set_self _ _ _ _ h

theorem getInstrPtr_setInstr_ne (mb : MalBlkRecord) (i j : Nat)
    (q : InstrRecord) (h : j ≠ i) :
    getInstrPtr (setInstr mb i q) j = getInstrPtr mb j :=
  getD_set_ne _ _ _ _ _ h

theorem setInstr_stop (mb : MalBlkRecord) (i : Nat) (q : InstrRecord) :
    (setInstr mb i q).stop = mb.stop :=
  List.length_set _ _ _

theorem setInstr_vars (mb : MalBlkRecord) (i : Nat) (q : InstrRecord) :
    (setInstr mb i q).vars = mb.vars := rfl

theorem setInstr_getInstrPtr (mb : MalBlkRecord) (i : Nat) :
    setInstr mb i (getInstrPtr mb i) = mb := by
  show MalBlkRecord.mk (mb.instrs.set i (mb.instrs.getD i default)) mb.vars = mb
  rw [set_getD_self]

theorem getVarType_setInstr (mb : MalBlkRecord) (i : Nat) (q : InstrRecord)
    (v : Nat) : getVarType (setInstr mb i q) v = getVarType mb v := rfl

theorem getArg_setArg_self (p : InstrRecord) (k v : Nat) (h : k < p.argc) :
    getArg (setArg p k v) k = v :=
  getD_set_self _ _ _ _ h

theorem getArg_setArg_ne (p : InstrRecord) (k k' v : Nat) (h : k' ≠ k) :
    getArg (setArg p k v) k' = getArg p k' :=
  getD_set_ne _ _ _ _ _ h

theorem setArg_argc (p : InstrRecord) (k v : Nat) :
    (setArg p k v).argc = p.argc :=
  List.length_set _ _ _

theorem setArg_retc (p : InstrRecord) (k v : Nat) :
    (setArg p k v).retc = p.retc := rfl

theorem setArg_modId (p : InstrRecord) (k v : Nat) :
    (setArg p k v).modId = p.modId := rfl

theorem setArg_fcnId (p : InstrRecord) (k v : Nat) :
    (setArg p k v).fcnId = p.fcnId := rfl

/-- Claim C5: if allocation of the Narrowing-Candidate Table fails, the
pass returns 0 performed actions and the program is left completely
unmodified. -/
theorem alloc_failure_identity (mb : MalBlkRecord) :
    OPTcoercionImplementation mb false = (mb, 0) := rfl

/-- Claim C9: on the chained identity-cast program, a single invocation of
the pass eliminates both cast instructions (the driver decrements the scan
index after a removal, so the shifted instruction is reprocessed), leaving
the later use referring directly to `x` (variable 1), with 2 actions. -/
theorem chained_casts_eliminated :
    OPTcoercionImplementation P9 true = (P9out, 2) := by decide

/-- Claim C3 (counterexample): on the scenario program whose arithmetic
result has the narrow base type `int` (variable 3 of type `bat int`), the
pass performs no rewrite at all — the operand's base type (`hge`) differs
from the result's base type, so the equality guard blocks the substitution
that the claim says must happen.  The add instruction's first operand slot
still holds variable 2 (`w`), not variable 1 (`x`). -/
theorem narrow_result_unrewritten_cex :
    (OPTcoercionImplementation (mkP34 TYPE_int TYPE_int) true).1
        = mkP34 TYPE_int TYPE_int ∧
    getArg (getInstrPtr (OPTcoercionImplementation
        (mkP34 TYPE_int TYPE_int) true).1 2) 1 = 2 := by decide

/-- Claim C3 (amended): for the scenario program with `x` of any base type
`T` strictly narrower than the wide type and the arithmetic result also of
base type `T`, the pass leaves the program completely unmodified and
returns 0: the operands' base type is the wide type, which differs from the
result's base type, so the equality guard blocks both substitutions. -/
theorem narrow_result_no_rewrite (T : Nat) (hT : T < TYPE_hge) :
    OPTcoercionImplementation (mkP34 T T) true = (mkP34 T T, 0) := by
  have h5 : T < 5 := hT
  interval_cases T <;> decide

/-- Witness for `narrow_result_no_rewrite` at `T = TYPE_int`. -/
theorem narrow_result_no_rewrite_witness :
    TYPE_int < TYPE_hge ∧
    OPTcoercionImplementation (mkP34 TYPE_int TYPE_int) true
        = (mkP34 TYPE_int TYPE_int, 0) :=
  ⟨by decide, narrow_result_no_rewrite TYPE_int (by decide)⟩

/-- Claim C4 (counterexample): on the scenario program whose arithmetic
result has the wide base type `hge`, the pass does rewrite — both operand
slots of the add instruction are replaced by the narrow source variable 1,
contrary to the claim that the ordering guard blocks the substitution.  The
guard `fromtype < r` passes (`int < hge`), and so does the equality guard
(`hge = hge`). -/
theorem wide_result_rewritten_cex :
    (OPTcoercionImplementation (mkP34 TYPE_hge TYPE_int) true).1
        ≠ mkP34 TYPE_hge TYPE_int ∧
    getArg (getInstrPtr (OPTcoercionImplementation
        (mkP34 TYPE_hge TYPE_int) true).1 2) 1 = 1 ∧
    getArg (getInstrPtr (OPTcoercionImplementation
        (mkP34 TYPE_hge TYPE_int) true).1 2) 2 = 1 := by decide

/-- Claim C4 (amended): for the scenario program with `x` of any base type
`T` strictly narrower than the wide type and the arithmetic result of the
wide base type itself, the pass rewrites both operand slots of the add
instruction to `x` (variable 1), leaves the wide-constructing instruction
in place, and returns an action count of 0. -/
theorem wide_result_both_operands_rewritten (T : Nat) (hT : T < TYPE_hge) :
    OPTcoercionImplementation (mkP34 TYPE_hge T) true = (mkP34out T, 0) := by
  have h5 : T < 5 := hT
  interval_cases T <;> decide

/-- Witness for `wide_result_both_operands_rewritten` at `T = TYPE_int`. -/
theorem wide_result_both_operands_rewritten_witness :
    TYPE_int < TYPE_hge ∧
    OPTcoercionImplementation (mkP34 TYPE_hge TYPE_int) true
        = (mkP34out TYPE_int, 0) :=
  ⟨by decide, wide_result_both_operands_rewritten TYPE_int (by decide)⟩

/-- Claim C6 (counterexample): an invocation in which the Narrowing
Rewriter rewrites both operand slots of an instruction (the program
changes) nevertheless returns an action count of 0 — narrowing rewrites are
not counted. -/
theorem actions_miss_narrowing_cex :
    (OPTcoercionImplementation (mkP34 TYPE_hge TYPE_int) true).1
        ≠ mkP34 TYPE_hge TYPE_int ∧
    (OPTcoercionImplementation (mkP34 TYPE_hge TYPE_int) true).2 = 0 := by
  decide

/-- Claim C7 (counterexample): the pass removes a `calc` instruction with
`retc = 2` and `argc = 2` (two results, zero operands) whose two argument
variables have equal types and whose function name matches the atom name —
the eliminator never examines `retc`, contradicting the claim that removal
happens only for `retc == 1` with one operand and that otherwise-shaped
recognized instructions are never mutated. -/
theorem retc_two_removed_cex :
    (getInstrPtr P7 1).retc = 2 ∧ (getInstrPtr P7 1).argc = 2 ∧
    OPTcoercionImplementation P7 true = (P7out, 1) := by decide

/-- Claim C1: for every arithmetic instruction of the designated family
(module `batcalc`, function `+`, `-`, `*`, `/` or `%`, three argument
slots: one result and two operands), the Narrowing Rewriter replaces an
operand slot with the candidate's recorded source variable if and only if
that operand's base atomic type equals the result's base atomic type, a
candidate is recorded for the operand variable (nonzero `src`), and the
recorded source type is strictly narrower than the result's base type;
the two operand slots are tested and rewritten independently (both
`if`-characterizations hold simultaneously), and the result slot is left
alone. -/
theorem calcStep_rewrites_iff (mb : MalBlkRecord) (i : Nat)
    (coerce : Nat → Coercion)
    (hmod : (getInstrPtr mb i).modId = some batcalcRef)
    (hfcn : (getInstrPtr mb i).fcnId = some plusRef ∨
            (getInstrPtr mb i).fcnId = some minusRef ∨
            (getInstrPtr mb i).fcnId = some mulRef ∨
            (getInstrPtr mb i).fcnId = some divRef ∨
            (getInstrPtr mb i).fcnId = some "%")
    (hretc : (getInstrPtr mb i).retc = 1)
    (hargc : (getInstrPtr mb i).argc = 3) :
    (getArg (getInstrPtr (coercionOptimizerCalcStep mb i coerce) i) 1 =
      if getColumnType (getVarType mb (getArg (getInstrPtr mb i) 1)) =
           getColumnType (getVarType mb (getArg (getInstrPtr mb i) 0)) ∧
         (coerce (getArg (getInstrPtr mb i) 1)).src ≠ 0 ∧
         (coerce (getArg (getInstrPtr mb i) 1)).fromtype <
           getColumnType (getVarType mb (getArg (getInstrPtr mb i) 0)) then
        (coerce (getArg (getInstrPtr mb i) 1)).src
      else getArg (getInstrPtr mb i) 1) ∧
    (getArg (getInstrPtr (coercionOptimizerCalcStep mb i coerce) i) 2 =
      if getColumnType (getVarType mb (getArg (getInstrPtr mb i) 2)) =
           getColumnType (getVarType mb (getArg (getInstrPtr mb i) 0)) ∧
         (coerce (getArg (getInstrPtr mb i) 2)).src ≠ 0 ∧
         (coerce (getArg (getInstrPtr mb i) 2)).fromtype <
           getColumnType (getVarType mb (getArg (getInstrPtr mb i) 0)) then
        (coerce (getArg (getInstrPtr mb i) 2)).src
      else getArg (getInstrPtr mb i) 2) ∧
    getArg (getInstrPtr (coercionOptimizerCalcStep mb i coerce) i) 0 =
      getArg (getInstrPtr mb i) 0 := by
  have hstop : i < mb.stop :=
    lt_stop_of_modId (by rw [hmod]; exact Option.noConfusion)
  have hex : ∃ f, (getInstrPtr mb i).fcnId = some f ∧ isCalcArithFcn f := by
    rcases hfcn with h | h | h | h | h <;> exact ⟨_, h, by decide⟩
  have hne : (getInstrPtr mb i).fcnId ≠ none := by
    rcases hex with ⟨f, hf, _⟩
    rw [hf]
    exact Option.noConfusion
  have h21 : (2 : Nat) ≠ 1 := by decide
  have h12 : (1 : Nat) ≠ 2 := by decide
  have h01 : (0 : Nat) ≠ 1 := by decide
  have h02 : (0 : Nat) ≠ 2 := by decide
  have ha1 : 1 < (getInstrPtr mb i).argc := by rw [hargc]; decide
  have ha2 : 2 < (getInstrPtr mb i).argc := by rw [hargc]; decide
  have ha1s : 2 < (setArg (getInstrPtr mb i) 1
      (coerce (getArg (getInstrPtr mb i) 1)).src).argc := by
    rw [setArg_argc]; exact ha2
  unfold coercionOptimizerCalcStep
  rw [if_neg (by push_neg; exact ⟨hmod, hne⟩)]
  rw [if_neg (by push_neg; exact ⟨hex, hargc⟩)]
  by_cases hc1 :
      getColumnType (getVarType mb (getArg (getInstrPtr mb i) 1)) =
        getColumnType (getVarType mb (getArg (getInstrPtr mb i) 0)) ∧
      (coerce (getArg (getInstrPtr mb i) 1)).src ≠ 0 ∧
      (coerce (getArg (getInstrPtr mb i) 1)).fromtype <
        getColumnType (getVarType mb (getArg (getInstrPtr mb i) 0))
  · simp only [if_pos hc1,
      getArg_setArg_ne (getInstrPtr mb i) 1 2 _ h21]
    by_cases hc2 :
        getColumnType (getVarType mb (getArg (getInstrPtr mb i) 2)) =
          getColumnType (getVarType mb (getArg (getInstrPtr mb i) 0)) ∧
        (coerce (getArg (getInstrPtr mb i) 2)).src ≠ 0 ∧
        (coerce (getArg (getInstrPtr mb i) 2)).fromtype <
          getColumnType (getVarType mb (getArg (getInstrPtr mb i) 0))
    · simp only [if_pos hc2, getInstrPtr_setInstr_self _ _ _ hstop]
      refine ⟨?_, ?_, ?_⟩
      · rw [getArg_setArg_ne _ 2 1 _ h12, getArg_setArg_self _ _ _ ha1]
      · rw [getArg_setArg_self _ _ _ ha1s]
      · rw [getArg_setArg_ne _ 2 0 _ h02, getArg_setArg_ne _ 1 0 _ h01]
    · simp only [if_neg hc2, getInstrPtr_setInstr_self _ _ _ hstop]
      refine ⟨?_, ?_, ?_⟩
      · rw [getArg_setArg_self _ _ _ ha1]
      · rw [getArg_setArg_ne _ 1 2 _ h21]
      · rw [getArg_setArg_ne _ 1 0 _ h01]
  · simp only [if_neg hc1]
    by_cases hc2 :
        getColumnType (getVarType mb (getArg (getInstrPtr mb i) 2)) =
          getColumnType (getVarType mb (getArg (getInstrPtr mb i) 0)) ∧
        (coerce (getArg (getInstrPtr mb i) 2)).src ≠ 0 ∧
        (coerce (getArg (getInstrPtr mb i) 2)).fromtype <
          getColumnType (getVarType mb (getArg (getInstrPtr mb i) 0))
    · simp only [if_pos hc2, getInstrPtr_setInstr_self _ _ _ hstop]
      refine ⟨?_, ?_, ?_⟩
      · rw [getArg_setArg_ne _ 2 1 _ h12]
      · rw [getArg_setArg_self _ _ _ ha2]
      · rw [getArg_setArg_ne _ 2 0 _ h02]
    · simp only [if_neg hc2, getInstrPtr_setInstr_self _ _ _ hstop,
        setInstr_getInstrPtr]
      exact ⟨trivial, trivial, trivial⟩



theorem calcStep_if1 (mb : MalBlkRecord) (i : Nat) (coerce : Nat → Coercion)
    (h : (getInstrPtr mb i).modId ≠ some batcalcRef ∨
         (getInstrPtr mb i).fcnId = none) :
    coercionOptimizerCalcStep mb i coerce = mb := by
  simp only [coercionOptimizerCalcStep]
  rw [if_pos h]

theorem calcStep_if2 (mb : MalBlkRecord) (i : Nat) (coerce : Nat → Coercion)
    (h1 : ¬((getInstrPtr mb i).modId ≠ some batcalcRef ∨
            (getInstrPtr mb i).fcnId = none))
    (h2 : (¬∃ f, (getInstrPtr mb i).fcnId = some f ∧ isCalcArithFcn f) ∨
          (getInstrPtr mb i).argc ≠ 3) :
    coercionOptimizerCalcStep mb i coerce = mb := by
  simp only [coercionOptimizerCalcStep]
  rw [if_neg h1, if_pos h2]

theorem lt_stop_of_fcnId {mb : MalBlkRecord} {i : Nat}
    (h : (getInstrPtr mb i).fcnId ≠ none) : i < mb.stop := by
  by_contra hlt
  apply h
  unfold getInstrPtr
  rw [List.getD_eq_default _ _ (Nat.le_of_not_lt hlt)]
  rfl

theorem step_trigger_iff (mb : MalBlkRecord) (i : Nat) :
    (coercionOptimizerStep mb i).2 = 1 ↔
      (getVarType mb (getArg (getInstrPtr mb i) 0) =
         getVarType mb (getArg (getInstrPtr mb i) 1) ∧
       (getInstrPtr mb i).fcnId =
         some (ATOMname (getVarType mb (getArg (getInstrPtr mb i) 1)))) := by
  by_cases ht : getVarType mb (getArg (getInstrPtr mb i) 0) =
      getVarType mb (getArg (getInstrPtr mb i) 1)
  · simp only [coercionOptimizerStep, if_neg (not_not_intro ht)]
    cases hf : (getInstrPtr mb i).fcnId with
    | none => simp [ht]
    | some f =>
        by_cases hn : f = ATOMname (getVarType mb (getArg (getInstrPtr mb i) 1))
        · simp [hn, ht]
        · simp [hn, ht]
  · simp only [coercionOptimizerStep, if_pos ht]
    simp [ht]

theorem step_eq_of_trigger (mb : MalBlkRecord) (i : Nat)
    (ht : getVarType mb (getArg (getInstrPtr mb i) 0) =
          getVarType mb (getArg (getInstrPtr mb i) 1))
    (hf : (getInstrPtr mb i).fcnId =
          some (ATOMname (getVarType mb (getArg (getInstrPtr mb i) 1)))) :
    coercionOptimizerStep mb i =
      (⟨removeAndPatch (getArg (getInstrPtr mb i) 0)
          (getArg (getInstrPtr mb i) 1) i mb.instrs, mb.vars⟩, 1) := by
  simp only [coercionOptimizerStep, if_neg (not_not_intro ht), hf]
  simp

theorem step_no_trigger_eq (mb : MalBlkRecord) (i : Nat)
    (h : (coercionOptimizerStep mb i).2 = 0) :
    (coercionOptimizerStep mb i).1 = mb := by
  have h1 : ¬ ((coercionOptimizerStep mb i).2 = 1) := by omega
  rw [step_trigger_iff] at h1
  push_neg at h1
  by_cases ht : getVarType mb (getArg (getInstrPtr mb i) 0) =
      getVarType mb (getArg (getInstrPtr mb i) 1)
  · simp only [coercionOptimizerStep, if_neg (not_not_intro ht)]
    cases hfc : (getInstrPtr mb i).fcnId with
    | none => rfl
    | some f =>
        have hne : f ≠ ATOMname (getVarType mb (getArg (getInstrPtr mb i) 1)) := by
          intro heq
          exact h1 ht (by rw [hfc, heq])
        simp [hne]
  · simp [coercionOptimizerStep, if_pos ht, ht]

theorem step_snd_cases (mb : MalBlkRecord) (i : Nat) :
    (coercionOptimizerStep mb i).2 = 0 ∨ (coercionOptimizerStep mb i).2 = 1 := by
  simp only [coercionOptimizerStep]
  split_ifs with h
  · simp
  · cases hfc : (getInstrPtr mb i).fcnId with
    | none => simp
    | some f =>
        by_cases h2 : f = ATOMname (getVarType mb (getArg (getInstrPtr mb i) 1)) <;>
          simp [h2]


/-- Claim C7 (amended): the driver attempts removal exactly for `calc`
instructions with `argc == 2`; such an instruction is removed if and only
if the static types of its two argument variables are equal and the
function name equals that type's canonical atom name.  `retc` is never
examined, so a two-result, zero-operand `calc` instruction passing those
tests is removed as well; any `calc` instruction failing the tests (in
particular any with `argc ≠ 2`) is left with the program unmutated. -/
theorem removal_trigger_iff (mb : MalBlkRecord) (coerce : Nat → Coercion)
    (i : Nat) (hmod : (getInstrPtr mb i).modId = some calcRef) :
    ((OPTcoercionBody mb coerce i).inc = 1 ↔
      ((getInstrPtr mb i).argc = 2 ∧
       getVarType mb (getArg (getInstrPtr mb i) 0) =
         getVarType mb (getArg (getInstrPtr mb i) 1) ∧
       (getInstrPtr mb i).fcnId =
         some (ATOMname (getVarType mb (getArg (getInstrPtr mb i) 1))))) ∧
    ((OPTcoercionBody mb coerce i).inc = 0 →
      (OPTcoercionBody mb coerce i).mb = mb) := by
  have hnn : (getInstrPtr mb i).modId ≠ none := by rw [hmod]; exact Option.noConfusion
  have hcalc : coercionOptimizerCalcStep mb i (coercionRecordHge mb i coerce) = mb :=
    calcStep_if1 mb i _ (Or.inl (by rw [hmod]; simp [calcRef, batcalcRef]))
  simp only [OPTcoercionBody, if_neg hnn, hcalc]
  by_cases hargc : (getInstrPtr mb i).argc = 2
  · rw [if_pos ⟨hmod, hargc⟩]
    constructor
    · rw [step_trigger_iff]
      constructor
      · intro h
        exact ⟨hargc, h⟩
      · intro h
        exact h.2
    · intro h
      exact step_no_trigger_eq mb i h
  · rw [if_neg (fun hc => hargc hc.2)]
    refine ⟨by simp [hargc], fun _ => rfl⟩

/-- Witness for `removal_trigger_iff` on the chained-cast program at its
first cast instruction. -/
theorem removal_trigger_iff_witness :
    (getInstrPtr P9 1).modId = some calcRef ∧
    (((OPTcoercionBody P9 zeroTable 1).inc = 1 ↔
      ((getInstrPtr P9 1).argc = 2 ∧
       getVarType P9 (getArg (getInstrPtr P9 1) 0) =
         getVarType P9 (getArg (getInstrPtr P9 1) 1) ∧
       (getInstrPtr P9 1).fcnId =
         some (ATOMname (getVarType P9 (getArg (getInstrPtr P9 1) 1))))) ∧
    ((OPTcoercionBody P9 zeroTable 1).inc = 0 →
      (OPTcoercionBody P9 zeroTable 1).mb = P9)) :=
  ⟨by decide, removal_trigger_iff P9 zeroTable 1 (by decide)⟩


/-- Claim C10: absence of a Narrowing Candidate is encoded as a zero
source-variable field.  The Narrowing Rewriter acts on an entry only when
its recorded source variable is nonzero (an entry with `src = 0` can never
be applied, for either operand slot); the recorder writes an entry only
keyed by the result variable of a `batcalc.hge` wide-constructor
instruction with `retc = 1` and `argc = 5`; and the table the pass starts
from is zero-initialized, so variables that are never the result of a
wide-constructor instruction keep a zero entry and are never rewritten
from it. -/
theorem zero_src_inert (mb : MalBlkRecord) (i : Nat)
    (coerce : Nat → Coercion) (v : Nat) :
    ((coerce (getArg (getInstrPtr mb i) 1)).src = 0 →
      getArg (getInstrPtr (coercionOptimizerCalcStep mb i coerce) i) 1 =
        getArg (getInstrPtr mb i) 1) ∧
    ((coerce (getArg (getInstrPtr mb i) 2)).src = 0 →
      getArg (getInstrPtr (coercionOptimizerCalcStep mb i coerce) i) 2 =
        getArg (getInstrPtr mb i) 2) ∧
    (coercionRecordHge mb i coerce v ≠ coerce v →
      v = getArg (getInstrPtr mb i) 0 ∧
      (getInstrPtr mb i).modId = some batcalcRef ∧
      (getInstrPtr mb i).fcnId = some hgeRef ∧
      (getInstrPtr mb i).retc = 1 ∧ (getInstrPtr mb i).argc = 5) ∧
    (zeroTable v).src = 0 := by
  have h12 : (1 : Nat) ≠ 2 := by decide
  have h21 : (2 : Nat) ≠ 1 := by decide
  refine ⟨?_, ?_, ?_, rfl⟩
  · intro h0
    by_cases hg1 : (getInstrPtr mb i).modId ≠ some batcalcRef ∨
        (getInstrPtr mb i).fcnId = none
    · rw [calcStep_if1 mb i coerce hg1]
    · by_cases hg2 : (¬∃ f, (getInstrPtr mb i).fcnId = some f ∧
          isCalcArithFcn f) ∨ (getInstrPtr mb i).argc ≠ 3
      · rw [calcStep_if2 mb i coerce hg1 hg2]
      · push_neg at hg1
        have hstop : i < mb.stop := lt_stop_of_modId (by rw [hg1.1]; exact Option.noConfusion)
        simp only [coercionOptimizerCalcStep]
        rw [if_neg (by push_neg; exact hg1)]
        rw [if_neg (by push_neg at hg2 ⊢; exact hg2)]
        have hp1 : (if getColumnType (getVarType mb (getArg (getInstrPtr mb i) 1)) =
              getColumnType (getVarType mb (getArg (getInstrPtr mb i) 0)) ∧
            (coerce (getArg (getInstrPtr mb i) 1)).src ≠ 0 ∧
            (coerce (getArg (getInstrPtr mb i) 1)).fromtype <
              getColumnType (getVarType mb (getArg (getInstrPtr mb i) 0)) then
            setArg (getInstrPtr mb i) 1 (coerce (getArg (getInstrPtr mb i) 1)).src
          else getInstrPtr mb i) = getInstrPtr mb i := if_neg (fun hc => hc.2.1 h0)
        rw [hp1]
        by_cases hc2 :
            getColumnType (getVarType mb (getArg (getInstrPtr mb i) 2)) =
              getColumnType (getVarType mb (getArg (getInstrPtr mb i) 0)) ∧
            (coerce (getArg (getInstrPtr mb i) 2)).src ≠ 0 ∧
            (coerce (getArg (getInstrPtr mb i) 2)).fromtype <
              getColumnType (getVarType mb (getArg (getInstrPtr mb i) 0))
        · rw [if_pos hc2, getInstrPtr_setInstr_self _ _ _ hstop,
            getArg_setArg_ne _ 2 1 _ h12]
        · rw [if_neg hc2, setInstr_getInstrPtr]
  · intro h0
    by_cases hg1 : (getInstrPtr mb i).modId ≠ some batcalcRef ∨
        (getInstrPtr mb i).fcnId = none
    · rw [calcStep_if1 mb i coerce hg1]
    · by_cases hg2 : (¬∃ f, (getInstrPtr mb i).fcnId = some f ∧
          isCalcArithFcn f) ∨ (getInstrPtr mb i).argc ≠ 3
      · rw [calcStep_if2 mb i coerce hg1 hg2]
      · push_neg at hg1
        have hstop : i < mb.stop := lt_stop_of_modId (by rw [hg1.1]; exact Option.noConfusion)
        simp only [coercionOptimizerCalcStep]
        rw [if_neg (by push_neg; exact hg1)]
        rw [if_neg (by push_neg at hg2 ⊢; exact hg2)]
        by_cases hc1 :
            getColumnType (getVarType mb (getArg (getInstrPtr mb i) 1)) =
              getColumnType (getVarType mb (getArg (getInstrPtr mb i) 0)) ∧
            (coerce (getArg (getInstrPtr mb i) 1)).src ≠ 0 ∧
            (coerce (getArg (getInstrPtr mb i) 1)).fromtype <
              getColumnType (getVarType mb (getArg (getInstrPtr mb i) 0))
        · have hp1 : (if getColumnType (getVarType mb (getArg (getInstrPtr mb i) 1)) =
                getColumnType (getVarType mb (getArg (getInstrPtr mb i) 0)) ∧
              (coerce (getArg (getInstrPtr mb i) 1)).src ≠ 0 ∧
              (coerce (getArg (getInstrPtr mb i) 1)).fromtype <
                getColumnType (getVarType mb (getArg (getInstrPtr mb i) 0)) then
              setArg (getInstrPtr mb i) 1 (coerce (getArg (getInstrPtr mb i) 1)).src
            else getInstrPtr mb i)
              = setArg (getInstrPtr mb i) 1 (coerce (getArg (getInstrPtr mb i) 1)).src :=
            if_pos hc1
          rw [hp1, getArg_setArg_ne (getInstrPtr mb i) 1 2 _ h21]
          rw [if_neg (fun hc => hc.2.1 h0), getInstrPtr_setInstr_self _ _ _ hstop,
            getArg_setArg_ne _ 1 2 _ h21]
        · have hp1 : (if getColumnType (getVarType mb (getArg (getInstrPtr mb i) 1)) =
                getColumnType (getVarType mb (getArg (getInstrPtr mb i) 0)) ∧
              (coerce (getArg (getInstrPtr mb i) 1)).src ≠ 0 ∧
              (coerce (getArg (getInstrPtr mb i) 1)).fromtype <
                getColumnType (getVarType mb (getArg (getInstrPtr mb i) 0)) then
              setArg (getInstrPtr mb i) 1 (coerce (getArg (getInstrPtr mb i) 1)).src
            else getInstrPtr mb i) = getInstrPtr mb i := if_neg hc1
          rw [hp1]
          rw [if_neg (fun hc => hc.2.1 h0), setInstr_getInstrPtr]
  · intro hne
    unfold coercionRecordHge at hne
    by_cases hg : (getInstrPtr mb i).modId = some batcalcRef ∧
        (getInstrPtr mb i).fcnId = some hgeRef ∧ (getInstrPtr mb i).retc = 1 ∧
        (getInstrPtr mb i).argc = 5 ∧
        isVarConstant mb (getArg (getInstrPtr mb i) 4) ∧
        isVarConstant mb (getArg (getInstrPtr mb i) 3)
    · rw [if_pos hg] at hne
      by_cases hv : v = getArg (getInstrPtr mb i) 0
      · exact ⟨hv, hg.1, hg.2.1, hg.2.2.1, hg.2.2.2.1⟩
      · rw [if_neg hv] at hne
        exact absurd rfl hne
    · rw [if_neg hg] at hne
      exact absurd rfl hne

/-- Witness for `zero_src_inert` on the scenario program with the zero
table: no operand slot of the arithmetic instruction is rewritten. -/
theorem zero_src_inert_witness :
    (zeroTable (getArg (getInstrPtr (mkP34 TYPE_hge TYPE_int) 2) 1)).src = 0 ∧
    getArg (getInstrPtr (coercionOptimizerCalcStep (mkP34 TYPE_hge TYPE_int) 2
        zeroTable) 2) 1 = getArg (getInstrPtr (mkP34 TYPE_hge TYPE_int) 2) 1 :=
  ⟨by decide,
   (zero_src_inert (mkP34 TYPE_hge TYPE_int) 2 zeroTable 0).1 (by decide)⟩


/-- Witness for `calcStep_rewrites_iff` on the scenario program with the
one-entry candidate table: both operand slots satisfy the rewrite
condition. -/
theorem calcStep_rewrites_iff_witness :
    (getInstrPtr (mkP34 TYPE_hge TYPE_int) 2).modId = some batcalcRef ∧
    (getInstrPtr (mkP34 TYPE_hge TYPE_int) 2).fcnId = some plusRef ∧
    (getInstrPtr (mkP34 TYPE_hge TYPE_int) 2).retc = 1 ∧
    (getInstrPtr (mkP34 TYPE_hge TYPE_int) 2).argc = 3 ∧
    ((getArg (getInstrPtr (coercionOptimizerCalcStep (mkP34 TYPE_hge TYPE_int)
          2 cTable) 2) 1 =
      if getColumnType (getVarType (mkP34 TYPE_hge TYPE_int)
             (getArg (getInstrPtr (mkP34 TYPE_hge TYPE_int) 2) 1)) =
           getColumnType (getVarType (mkP34 TYPE_hge TYPE_int)
             (getArg (getInstrPtr (mkP34 TYPE_hge TYPE_int) 2) 0)) ∧
         (cTable (getArg (getInstrPtr (mkP34 TYPE_hge TYPE_int) 2) 1)).src ≠ 0 ∧
         (cTable (getArg (getInstrPtr (mkP34 TYPE_hge TYPE_int) 2) 1)).fromtype <
           getColumnType (getVarType (mkP34 TYPE_hge TYPE_int)
             (getArg (getInstrPtr (mkP34 TYPE_hge TYPE_int) 2) 0)) then
        (cTable (getArg (getInstrPtr (mkP34 TYPE_hge TYPE_int) 2) 1)).src
      else getArg (getInstrPtr (mkP34 TYPE_hge TYPE_int) 2) 1) ∧
    (getArg (getInstrPtr (coercionOptimizerCalcStep (mkP34 TYPE_hge TYPE_int)
          2 cTable) 2) 2 =
      if getColumnType (getVarType (mkP34 TYPE_hge TYPE_int)
             (getArg (getInstrPtr (mkP34 TYPE_hge TYPE_int) 2) 2)) =
           getColumnType (getVarType (mkP34 TYPE_hge TYPE_int)
             (getArg (getInstrPtr (mkP34 TYPE_hge TYPE_int) 2) 0)) ∧
         (cTable (getArg (getInstrPtr (mkP34 TYPE_hge TYPE_int) 2) 2)).src ≠ 0 ∧
         (cTable (getArg (getInstrPtr (mkP34 TYPE_hge TYPE_int) 2) 2)).fromtype <
           getColumnType (getVarType (mkP34 TYPE_hge TYPE_int)
             (getArg (getInstrPtr (mkP34 TYPE_hge TYPE_int) 2) 0)) then
        (cTable (getArg (getInstrPtr (mkP34 TYPE_hge TYPE_int) 2) 2)).src
      else getArg (getInstrPtr (mkP34 TYPE_hge TYPE_int) 2) 2) ∧
    getArg (getInstrPtr (coercionOptimizerCalcStep (mkP34 TYPE_hge TYPE_int)
        2 cTable) 2) 0 = getArg (getInstrPtr (mkP34 TYPE_hge TYPE_int) 2) 0) :=
  ⟨by decide, by decide, by decide, by decide,
   calcStep_rewrites_iff (mkP34 TYPE_hge TYPE_int) 2 cTable (by decide)
     (Or.inl (by decide)) (by decide) (by decide)⟩


theorem rewriteArgs_length (retc a b : Nat) :
    ∀ (l : List Nat) (n : Nat), (rewriteArgs retc a b n l).length = l.length := by
  intro l
  induction l with
  | nil => intro n; rfl
  | cons v vs ih => intro n; simp [rewriteArgs, ih]

theorem rewriteArgs_getD (retc a b : Nat) :
    ∀ (l : List Nat) (n k : Nat), k < l.length →
      (rewriteArgs retc a b n l).getD k 0 =
        if retc ≤ n + k ∧ l.getD k 0 = a then b else l.getD k 0 := by
  intro l
  induction l with
  | nil => intro n k hk; simp at hk
  | cons v vs ih =>
      intro n k hk
      cases k with
      | zero => simp [rewriteArgs, List.getD]
      | succ m =>
          have hm : m < vs.length := by simpa using hk
          have := ih (n + 1) m hm
          simp only [rewriteArgs, List.getD_cons_succ]
          rw [this]
          have harith : n + 1 + m = n + (m + 1) := by omega
          rw [harith]

theorem rewriteUse_retc (a b : Nat) (q : InstrRecord) :
    (rewriteUse a b q).retc = q.retc := rfl

theorem rewriteUse_argc (a b : Nat) (q : InstrRecord) :
    (rewriteUse a b q).argc = q.argc := rewriteArgs_length _ _ _ _ _

theorem rewriteUse_modId (a b : Nat) (q : InstrRecord) :
    (rewriteUse a b q).modId = q.modId := rfl

theorem rewriteUse_fcnId (a b : Nat) (q : InstrRecord) :
    (rewriteUse a b q).fcnId = q.fcnId := rfl

theorem rewriteUse_default (a b : Nat) :
    rewriteUse a b (default : InstrRecord) = default := rfl

theorem getArg_rewriteUse (a b : Nat) (q : InstrRecord) (k : Nat) :
    getArg (rewriteUse a b q) k =
      if q.retc ≤ k ∧ k < q.argc ∧ getArg q k = a then b else getArg q k := by
  by_cases hk : k < q.argc
  · have := rewriteArgs_getD q.retc a b q.argv 0 k hk
    rw [Nat.zero_add] at this
    show (rewriteArgs q.retc a b 0 q.argv).getD k 0 = _
    rw [this]
    unfold getArg
    by_cases h1 : q.retc ≤ k ∧ q.argv.getD k 0 = a
    · rw [if_pos h1, if_pos ⟨h1.1, hk, h1.2⟩]
    · rw [if_neg h1, if_neg (fun hc => h1 ⟨hc.1, hc.2.2⟩)]
  · have hge : q.argv.length ≤ k := Nat.le_of_not_lt hk
    have hge2 : (rewriteArgs q.retc a b 0 q.argv).length ≤ k := by
      rw [rewriteArgs_length]; exact hge
    show (rewriteArgs q.retc a b 0 q.argv).getD k 0 = _
    rw [List.getD_eq_default _ _ hge2,
      if_neg (fun hc => hk hc.2.1)]
    show (0 : Nat) = getArg q k
    unfold getArg
    rw [List.getD_eq_default _ _ hge]

theorem removeAndPatch_ge (a b : Nat) :
    ∀ (i : Nat) (l : List InstrRecord), l.length ≤ i →
      removeAndPatch a b i l = l := by
  intro i
  induction i with
  | zero =>
      intro l hl
      cases l with
      | nil => rfl
      | cons q qs => simp at hl
  | succ n ih =>
      intro l hl
      cases l with
      | nil => rfl
      | cons q qs =>
          simp only [removeAndPatch]
          rw [ih qs (by simpa using hl)]

theorem removeAndPatch_length (a b : Nat) :
    ∀ (i : Nat) (l : List InstrRecord), i < l.length →
      (removeAndPatch a b i l).length = l.length - 1 := by
  intro i
  induction i with
  | zero =>
      intro l hl
      cases l with
      | nil => simp at hl
      | cons q qs => simp [removeAndPatch]
  | succ n ih =>
      intro l hl
      cases l with
      | nil => simp at hl
      | cons q qs =>
          have hq : n < qs.length := by simpa using hl
          simp only [removeAndPatch, List.length_cons, ih qs hq]
          omega

theorem removeAndPatch_getD_lt (a b : Nat) :
    ∀ (i : Nat) (l : List InstrRecord) (j : Nat), j < i →
      (removeAndPatch a b i l).getD j default = l.getD j default := by
  intro i
  induction i with
  | zero => intro l j hj; omega
  | succ n ih =>
      intro l j hj
      cases l with
      | nil => rfl
      | cons q qs =>
          cases j with
          | zero => rfl
          | succ m =>
              simp only [removeAndPatch, List.getD_cons_succ]
              exact ih qs m (by omega)

theorem getD_map_rewriteUse (a b : Nat) :
    ∀ (l : List InstrRecord) (j : Nat),
      (l.map (rewriteUse a b)).getD j default =
        rewriteUse a b (l.getD j default) := by
  intro l
  induction l with
  | nil => intro j; simp [rewriteUse_default]
  | cons q qs ih =>
      intro j
      cases j with
      | zero => rfl
      | succ m => simp only [List.map_cons, List.getD_cons_succ]; exact ih m

theorem removeAndPatch_getD_ge (a b : Nat) :
    ∀ (i : Nat) (l : List InstrRecord) (j : Nat), i ≤ j →
      (removeAndPatch a b i l).getD j default =
        rewriteUse a b (l.getD (j + 1) default) := by
  intro i
  induction i with
  | zero =>
      intro l j _
      cases l with
      | nil => simp [removeAndPatch, rewriteUse_default]
      | cons q qs =>
          simp only [removeAndPatch, List.getD_cons_succ]
          exact getD_map_rewriteUse a b qs j
  | succ n ih =>
      intro l j hj
      cases l with
      | nil => simp [removeAndPatch, rewriteUse_default]
      | cons q qs =>
          cases j with
          | zero => omega
          | succ m =>
              simp only [removeAndPatch, List.getD_cons_succ]
              exact ih qs m (by omega)


theorem mk_stop (l : List InstrRecord) (vs : List VarInfo) :
    (MalBlkRecord.mk l vs).stop = l.length := rfl

theorem mk_getInstrPtr (l : List InstrRecord) (vs : List VarInfo) (j : Nat) :
    getInstrPtr (MalBlkRecord.mk l vs) j = l.getD j default := rfl

theorem step_fst_of_removed (mb : MalBlkRecord) (i : Nat)
    (hk : (coercionOptimizerStep mb i).2 = 1) :
    (coercionOptimizerStep mb i).1 =
      ⟨removeAndPatch (getArg (getInstrPtr mb i) 0)
        (getArg (getInstrPtr mb i) 1) i mb.instrs, mb.vars⟩ := by
  have ht := (step_trigger_iff mb i).1 hk
  rw [step_eq_of_trigger mb i ht.1 ht.2]

/-- Claim C2: when the Identity-Coercion Eliminator removes the instruction
at index `i` (in a program where the removed instruction's result variable
is assigned only there, the single-assignment precondition of the spec),
the result program has one fewer instruction; instructions before `i` are
unchanged; in every instruction from position `i` to the end every operand
slot holding the removed result variable is replaced by the removed
instruction's operand variable and other operand slots are unchanged;
result slots are never rewritten; and the removed result variable appears
in no result-slot position afterwards. -/
theorem identity_elimination_sound (mb : MalBlkRecord) (i : Nat)
    (hi : i < mb.stop)
    (hk : (coercionOptimizerStep mb i).2 = 1)
    (hSA : ∀ j, j < mb.stop → j ≠ i →
        ∀ k, k < (getInstrPtr mb j).retc →
          getArg (getInstrPtr mb j) k ≠ getArg (getInstrPtr mb i) 0) :
    (coercionOptimizerStep mb i).1.stop = mb.stop - 1 ∧
    (∀ j, j < i →
      getInstrPtr (coercionOptimizerStep mb i).1 j = getInstrPtr mb j) ∧
    (∀ j, i ≤ j → j < (coercionOptimizerStep mb i).1.stop →
      ∀ k, (getInstrPtr (coercionOptimizerStep mb i).1 j).retc ≤ k →
        k < (getInstrPtr (coercionOptimizerStep mb i).1 j).argc →
        getArg (getInstrPtr (coercionOptimizerStep mb i).1 j) k =
          if getArg (getInstrPtr mb (j + 1)) k = getArg (getInstrPtr mb i) 0
          then getArg (getInstrPtr mb i) 1
          else getArg (getInstrPtr mb (j + 1)) k) ∧
    (∀ j, i ≤ j → j < (coercionOptimizerStep mb i).1.stop →
      ∀ k, k < (getInstrPtr (coercionOptimizerStep mb i).1 j).retc →
        getArg (getInstrPtr (coercionOptimizerStep mb i).1 j) k =
          getArg (getInstrPtr mb (j + 1)) k) ∧
    (∀ j, j < (coercionOptimizerStep mb i).1.stop →
      ∀ k, k < (getInstrPtr (coercionOptimizerStep mb i).1 j).retc →
        getArg (getInstrPtr (coercionOptimizerStep mb i).1 j) k ≠
          getArg (getInstrPtr mb i) 0) := by
  have hst : mb.stop = mb.instrs.length := rfl
  have hfst := step_fst_of_removed mb i hk
  rw [hfst]
  refine ⟨?_, ?_, ?_, ?_, ?_⟩
  · rw [mk_stop, removeAndPatch_length _ _ _ _ (hst ▸ hi)]
    rfl
  · intro j hj
    rw [mk_getInstrPtr, removeAndPatch_getD_lt _ _ _ _ _ hj]
    rfl
  · intro j hij hjs k hrk hka
    rw [mk_getInstrPtr, removeAndPatch_getD_ge _ _ _ _ _ hij] at hrk hka ⊢
    rw [rewriteUse_retc] at hrk
    rw [rewriteUse_argc] at hka
    rw [getArg_rewriteUse]
    by_cases he : getArg (getInstrPtr mb (j + 1)) k = getArg (getInstrPtr mb i) 0
    · rw [if_pos ⟨hrk, hka, he⟩, if_pos he]
    · rw [if_neg (fun hc => he hc.2.2), if_neg he]
      rfl
  · intro j hij hjs k hrk
    rw [mk_getInstrPtr, removeAndPatch_getD_ge _ _ _ _ _ hij] at hrk ⊢
    rw [rewriteUse_retc] at hrk
    rw [getArg_rewriteUse,
      if_neg (fun hc => Nat.lt_irrefl k (Nat.lt_of_lt_of_le hrk hc.1))]
    rfl
  · intro j hjs k hrk
    rw [mk_stop, removeAndPatch_length _ _ _ _ (hst ▸ hi)] at hjs
    by_cases hj : j < i
    · rw [mk_getInstrPtr, removeAndPatch_getD_lt _ _ _ _ _ hj] at hrk ⊢
      have hjs2 : j < mb.stop := by omega
      exact hSA j hjs2 (Nat.ne_of_lt hj) k hrk
    · have hij : i ≤ j := Nat.le_of_not_lt hj
      rw [mk_getInstrPtr, removeAndPatch_getD_ge _ _ _ _ _ hij] at hrk ⊢
      rw [rewriteUse_retc] at hrk
      rw [getArg_rewriteUse,
        if_neg (fun hc => Nat.lt_irrefl k (Nat.lt_of_lt_of_le hrk hc.1))]
      have hj1 : j + 1 < mb.stop := by
        rw [hst]
        omega
      exact hSA (j + 1) hj1 (by omega) k hrk

/-- Witness for `identity_elimination_sound` on the chained-cast program at
its first cast. -/
theorem identity_elimination_sound_witness :
    1 < P9.stop ∧ (coercionOptimizerStep P9 1).2 = 1 ∧
    (∀ j, j < P9.stop → j ≠ 1 →
        ∀ k, k < (getInstrPtr P9 j).retc →
          getArg (getInstrPtr P9 j) k ≠ getArg (getInstrPtr P9 1) 0) ∧
    ((coercionOptimizerStep P9 1).1.stop = P9.stop - 1 ∧
    (∀ j, j < 1 →
      getInstrPtr (coercionOptimizerStep P9 1).1 j = getInstrPtr P9 j) ∧
    (∀ j, 1 ≤ j → j < (coercionOptimizerStep P9 1).1.stop →
      ∀ k, (getInstrPtr (coercionOptimizerStep P9 1).1 j).retc ≤ k →
        k < (getInstrPtr (coercionOptimizerStep P9 1).1 j).argc →
        getArg (getInstrPtr (coercionOptimizerStep P9 1).1 j) k =
          if getArg (getInstrPtr P9 (j + 1)) k = getArg (getInstrPtr P9 1) 0
          then getArg (getInstrPtr P9 1) 1
          else getArg (getInstrPtr P9 (j + 1)) k) ∧
    (∀ j, 1 ≤ j → j < (coercionOptimizerStep P9 1).1.stop →
      ∀ k, k < (getInstrPtr (coercionOptimizerStep P9 1).1 j).retc →
        getArg (getInstrPtr (coercionOptimizerStep P9 1).1 j) k =
          getArg (getInstrPtr P9 (j + 1)) k) ∧
    (∀ j, j < (coercionOptimizerStep P9 1).1.stop →
      ∀ k, k < (getInstrPtr (coercionOptimizerStep P9 1).1 j).retc →
        getArg (getInstrPtr (coercionOptimizerStep P9 1).1 j) k ≠
          getArg (getInstrPtr P9 1) 0)) :=
  ⟨by decide, by decide, by decide,
   identity_elimination_sound P9 1 (by decide) (by decide) (by decide)⟩



theorem calcStep_vars (mb : MalBlkRecord) (i : Nat) (coerce : Nat → Coercion) :
    (coercionOptimizerCalcStep mb i coerce).vars = mb.vars := by
  simp only [coercionOptimizerCalcStep]
  split_ifs <;> rfl

theorem calcStep_stop (mb : MalBlkRecord) (i : Nat) (coerce : Nat → Coercion) :
    (coercionOptimizerCalcStep mb i coerce).stop = mb.stop := by
  simp only [coercionOptimizerCalcStep]
  split_ifs <;> first | rfl | exact setInstr_stop _ _ _

theorem step_vars (mb : MalBlkRecord) (i : Nat) :
    (coercionOptimizerStep mb i).1.vars = mb.vars := by
  rcases step_snd_cases mb i with h | h
  · rw [step_no_trigger_eq mb i h]
  · rw [step_fst_of_removed mb i h]

theorem body_vars (mb : MalBlkRecord) (coerce : Nat → Coercion) (i : Nat) :
    (OPTcoercionBody mb coerce i).mb.vars = mb.vars := by
  simp only [OPTcoercionBody]
  by_cases h1 : (getInstrPtr mb i).modId = none
  · rw [if_pos h1]
  · rw [if_neg h1]
    by_cases h2 : (getInstrPtr (coercionOptimizerCalcStep mb i
          (coercionRecordHge mb i coerce)) i).modId = some calcRef ∧
        (getInstrPtr (coercionOptimizerCalcStep mb i
          (coercionRecordHge mb i coerce)) i).argc = 2
    · rw [if_pos h2]
      show (coercionOptimizerStep _ i).1.vars = mb.vars
      rw [step_vars, calcStep_vars]
    · rw [if_neg h2]
      exact calcStep_vars _ _ _

theorem body_cases (mb : MalBlkRecord) (coerce : Nat → Coercion) (i : Nat)
    (hi : i < mb.stop) :
    ((OPTcoercionBody mb coerce i).inc = 0 ∧
     (OPTcoercionBody mb coerce i).mb.stop = mb.stop ∧
     (OPTcoercionBody mb coerce i).next = i + 1) ∨
    ((OPTcoercionBody mb coerce i).inc = 1 ∧
     (OPTcoercionBody mb coerce i).mb.stop = mb.stop - 1 ∧
     (OPTcoercionBody mb coerce i).next = i) := by
  simp only [OPTcoercionBody]
  by_cases h1 : (getInstrPtr mb i).modId = none
  · rw [if_pos h1]
    exact Or.inl ⟨rfl, rfl, rfl⟩
  · rw [if_neg h1]
    by_cases h2 : (getInstrPtr (coercionOptimizerCalcStep mb i
          (coercionRecordHge mb i coerce)) i).modId = some calcRef ∧
        (getInstrPtr (coercionOptimizerCalcStep mb i
          (coercionRecordHge mb i coerce)) i).argc = 2
    · rw [if_pos h2]
      rcases step_snd_cases (coercionOptimizerCalcStep mb i
          (coercionRecordHge mb i coerce)) i with h | h
      · refine Or.inl ⟨h, ?_, ?_⟩
        · show (coercionOptimizerStep _ i).1.stop = mb.stop
          rw [step_no_trigger_eq _ _ h]
          exact calcStep_stop _ _ _
        · show (if (coercionOptimizerStep _ i).2 ≠ 0 then i else i + 1) = i + 1
          rw [if_neg (by omega)]
      · refine Or.inr ⟨h, ?_, ?_⟩
        · show (coercionOptimizerStep _ i).1.stop = mb.stop - 1
          rw [step_fst_of_removed _ _ h, mk_stop]
          have h3 : (coercionOptimizerCalcStep mb i
              (coercionRecordHge mb i coerce)).instrs.length = mb.stop :=
            calcStep_stop mb i _
          rw [removeAndPatch_length _ _ _ _ (by omega)]
          omega
        · show (if (coercionOptimizerStep _ i).2 ≠ 0 then i else i + 1) = i
          rw [if_pos (by omega)]
    · rw [if_neg h2]
      exact Or.inl ⟨rfl, calcStep_stop _ _ _, rfl⟩

theorem loop_actions_stop :
    ∀ (fuel : Nat) (mb : MalBlkRecord) (coerce : Nat → Coercion)
      (i actions : Nat), mb.stop - i ≤ fuel →
      (OPTcoercionLoop fuel mb coerce i actions).2 +
        (OPTcoercionLoop fuel mb coerce i actions).1.stop =
        actions + mb.stop := by
  intro fuel
  induction fuel with
  | zero =>
      intro mb coerce i actions hf
      simp only [OPTcoercionLoop]
  | succ n ih =>
      intro mb coerce i actions hf
      by_cases hi : i < mb.stop
      · simp only [OPTcoercionLoop, if_pos hi]
        rcases body_cases mb coerce i hi with ⟨h0, hs, hn⟩ | ⟨h0, hs, hn⟩
        · rw [ih _ _ _ _ (by rw [hs, hn]; omega), hs, h0]
          omega
        · rw [ih _ _ _ _ (by rw [hs, hn]; omega), hs, h0]
          omega
      · simp only [OPTcoercionLoop, if_neg hi]

/-- Claim C6 (amended): the integer returned by the pass counts exactly
the identity-coercion removals performed - it always equals the decrease
in the program's instruction count (narrowing rewrites contribute
nothing to the counter). -/
theorem actions_count_removals (mb : MalBlkRecord) :
    (OPTcoercionImplementation mb true).2 +
      (OPTcoercionImplementation mb true).1.stop = mb.stop := by
  show (OPTcoercionLoop mb.stop mb zeroTable 1 0).2 +
      (OPTcoercionLoop mb.stop mb zeroTable 1 0).1.stop = mb.stop
  have := loop_actions_stop mb.stop mb zeroTable 1 0 (by omega)
  omega



theorem tableUpto_succ (mb : MalBlkRecord) (j : Nat) (hj : 1 ≤ j) :
    tableUpto mb (j + 1) = coercionRecordHge mb j (tableUpto mb j) := by
  obtain ⟨m, rfl⟩ : ∃ m, j = m + 1 := ⟨j - 1, by omega⟩
  rfl

theorem tableUpto_one (mb : MalBlkRecord) : tableUpto mb 1 = zeroTable := rfl

theorem getVarType_congr {mb mb' : MalBlkRecord}
    (hvars : mb.vars = mb'.vars) (v : Nat) :
    getVarType mb v = getVarType mb' v := by
  unfold getVarType
  rw [hvars]

theorem isVarConstant_congr {mb mb' : MalBlkRecord}
    (hvars : mb.vars = mb'.vars) (v : Nat) :
    isVarConstant mb v = isVarConstant mb' v := by
  unfold isVarConstant
  rw [hvars]

theorem getVarConstant_congr {mb mb' : MalBlkRecord}
    (hvars : mb.vars = mb'.vars) (v : Nat) :
    getVarConstant mb v = getVarConstant mb' v := by
  unfold getVarConstant
  rw [hvars]

theorem recordHge_congr {mb mb' : MalBlkRecord} (i : Nat) (c : Nat → Coercion)
    (hinstr : getInstrPtr mb i = getInstrPtr mb' i)
    (hvars : mb.vars = mb'.vars) :
    coercionRecordHge mb i c = coercionRecordHge mb' i c := by
  unfold coercionRecordHge getArgType
  rw [hinstr]
  simp only [fun v => isVarConstant_congr hvars v,
    fun v => getVarConstant_congr hvars v,
    fun v => getVarType_congr hvars v]

theorem tableUpto_congr {mb mb' : MalBlkRecord} (j : Nat)
    (hvars : mb.vars = mb'.vars)
    (hinstr : ∀ m, 1 ≤ m → m < j → getInstrPtr mb m = getInstrPtr mb' m) :
    tableUpto mb j = tableUpto mb' j := by
  induction j with
  | zero => rfl
  | succ n ih =>
      cases n with
      | zero => rfl
      | succ m =>
          show coercionRecordHge mb (m + 1) (tableUpto mb (m + 1)) =
            coercionRecordHge mb' (m + 1) (tableUpto mb' (m + 1))
          rw [ih (fun k hk1 hk2 => hinstr k hk1 (by omega)),
            recordHge_congr (m + 1) _ (hinstr (m + 1) (by omega) (by omega)) hvars]

theorem recordHge_id_of_mod (mb : MalBlkRecord) (i : Nat) (c : Nat → Coercion)
    (h : (getInstrPtr mb i).modId ≠ some batcalcRef) :
    coercionRecordHge mb i c = c := by
  unfold coercionRecordHge
  rw [if_neg (fun hc => h hc.1)]

theorem recordHge_id_of_argc (mb : MalBlkRecord) (i : Nat) (c : Nat → Coercion)
    (h : (getInstrPtr mb i).argc ≠ 5) :
    coercionRecordHge mb i c = c := by
  unfold coercionRecordHge
  rw [if_neg (fun hc => h hc.2.2.2.1)]

theorem calcStep_id_of_argc (mb : MalBlkRecord) (i : Nat) (c : Nat → Coercion)
    (h : (getInstrPtr mb i).argc ≠ 3) :
    coercionOptimizerCalcStep mb i c = mb := by
  by_cases g1 : (getInstrPtr mb i).modId ≠ some batcalcRef ∨
      (getInstrPtr mb i).fcnId = none
  · exact calcStep_if1 mb i c g1
  · exact calcStep_if2 mb i c g1 (Or.inr h)

theorem TableOK_zero (mb : MalBlkRecord) : TableOK mb zeroTable := by
  intro v hv
  exact absurd rfl hv

theorem TableOK_congr {mb mb' : MalBlkRecord} {c : Nat → Coercion}
    (hvars : mb.vars = mb'.vars) (h : TableOK mb c) : TableOK mb' c := by
  intro v hv
  rw [← getVarType_congr hvars]
  exact h v hv

theorem TableOK_record (mb : MalBlkRecord) (i : Nat) {c : Nat → Coercion}
    (h : TableOK mb c) : TableOK mb (coercionRecordHge mb i c) := by
  intro v
  simp only [coercionRecordHge]
  by_cases hg : (getInstrPtr mb i).modId = some batcalcRef ∧
      (getInstrPtr mb i).fcnId = some hgeRef ∧
      (getInstrPtr mb i).retc = 1 ∧ (getInstrPtr mb i).argc = 5 ∧
      isVarConstant mb (getArg (getInstrPtr mb i) 4) ∧
      isVarConstant mb (getArg (getInstrPtr mb i) 3)
  · rw [if_pos hg]
    show (if v = getArg (getInstrPtr mb i) 0 then _ else c v).src ≠ 0 → _
    by_cases hv0 : v = getArg (getInstrPtr mb i) 0
    · rw [if_pos hv0]
      intro _
      rfl
    · rw [if_neg hv0]
      exact h v
  · rw [if_neg hg]
    exact h v



theorem calcStep_slots (mb : MalBlkRecord) (i : Nat) (coerce : Nat → Coercion)
    (hmod : (getInstrPtr mb i).modId = some batcalcRef)
    (hex : ∃ f, (getInstrPtr mb i).fcnId = some f ∧ isCalcArithFcn f)
    (hargc : (getInstrPtr mb i).argc = 3) :
    (getArg (getInstrPtr (coercionOptimizerCalcStep mb i coerce) i) 1 =
      if getColumnType (getVarType mb (getArg (getInstrPtr mb i) 1)) =
           getColumnType (getVarType mb (getArg (getInstrPtr mb i) 0)) ∧
         (coerce (getArg (getInstrPtr mb i) 1)).src ≠ 0 ∧
         (coerce (getArg (getInstrPtr mb i) 1)).fromtype <
           getColumnType (getVarType mb (getArg (getInstrPtr mb i) 0)) then
        (coerce (getArg (getInstrPtr mb i) 1)).src
      else getArg (getInstrPtr mb i) 1) ∧
    (getArg (getInstrPtr (coercionOptimizerCalcStep mb i coerce) i) 2 =
      if getColumnType (getVarType mb (getArg (getInstrPtr mb i) 2)) =
           getColumnType (getVarType mb (getArg (getInstrPtr mb i) 0)) ∧
         (coerce (getArg (getInstrPtr mb i) 2)).src ≠ 0 ∧
         (coerce (getArg (getInstrPtr mb i) 2)).fromtype <
           getColumnType (getVarType mb (getArg (getInstrPtr mb i) 0)) then
        (coerce (getArg (getInstrPtr mb i) 2)).src
      else getArg (getInstrPtr mb i) 2) ∧
    getArg (getInstrPtr (coercionOptimizerCalcStep mb i coerce) i) 0 =
      getArg (getInstrPtr mb i) 0 := by
  have hstop : i < mb.stop :=
    lt_stop_of_modId (by rw [hmod]; exact Option.noConfusion)
  have hne : (getInstrPtr mb i).fcnId ≠ none := by
    rcases hex with ⟨f, hf, _⟩
    rw [hf]
    exact Option.noConfusion
  have h21 : (2 : Nat) ≠ 1 := by decide
  have h12 : (1 : Nat) ≠ 2 := by decide
  have h01 : (0 : Nat) ≠ 1 := by decide
  have h02 : (0 : Nat) ≠ 2 := by decide
  have ha1 : 1 < (getInstrPtr mb i).argc := by rw [hargc]; decide
  have ha2 : 2 < (getInstrPtr mb i).argc := by rw [hargc]; decide
  have ha1s : 2 < (setArg (getInstrPtr mb i) 1
      (coerce (getArg (getInstrPtr mb i) 1)).src).argc := by
    rw [setArg_argc]; exact ha2
  unfold coercionOptimizerCalcStep
  rw [if_neg (by push_neg; exact ⟨hmod, hne⟩)]
  rw [if_neg (by push_neg; exact ⟨hex, hargc⟩)]
  by_cases hc1 :
      getColumnType (getVarType mb (getArg (getInstrPtr mb i) 1)) =
        getColumnType (getVarType mb (getArg (getInstrPtr mb i) 0)) ∧
      (coerce (getArg (getInstrPtr mb i) 1)).src ≠ 0 ∧
      (coerce (getArg (getInstrPtr mb i) 1)).fromtype <
        getColumnType (getVarType mb (getArg (getInstrPtr mb i) 0))
  · simp only [if_pos hc1,
      getArg_setArg_ne (getInstrPtr mb i) 1 2 _ h21]
    by_cases hc2 :
        getColumnType (getVarType mb (getArg (getInstrPtr mb i) 2)) =
          getColumnType (getVarType mb (getArg (getInstrPtr mb i) 0)) ∧
        (coerce (getArg (getInstrPtr mb i) 2)).src ≠ 0 ∧
        (coerce (getArg (getInstrPtr mb i) 2)).fromtype <
          getColumnType (getVarType mb (getArg (getInstrPtr mb i) 0))
    · simp only [if_pos hc2, getInstrPtr_setInstr_self _ _ _ hstop]
      refine ⟨?_, ?_, ?_⟩
      · rw [getArg_setArg_ne _ 2 1 _ h12, getArg_setArg_self _ _ _ ha1]
      · rw [getArg_setArg_self _ _ _ ha1s]
      · rw [getArg_setArg_ne _ 2 0 _ h02, getArg_setArg_ne _ 1 0 _ h01]
    · simp only [if_neg hc2, getInstrPtr_setInstr_self _ _ _ hstop]
      refine ⟨?_, ?_, ?_⟩
      · rw [getArg_setArg_self _ _ _ ha1]
      · rw [getArg_setArg_ne _ 1 2 _ h21]
      · rw [getArg_setArg_ne _ 1 0 _ h01]
  · simp only [if_neg hc1]
    by_cases hc2 :
        getColumnType (getVarType mb (getArg (getInstrPtr mb i) 2)) =
          getColumnType (getVarType mb (getArg (getInstrPtr mb i) 0)) ∧
        (coerce (getArg (getInstrPtr mb i) 2)).src ≠ 0 ∧
        (coerce (getArg (getInstrPtr mb i) 2)).fromtype <
          getColumnType (getVarType mb (getArg (getInstrPtr mb i) 0))
    · simp only [if_pos hc2, getInstrPtr_setInstr_self _ _ _ hstop]
      refine ⟨?_, ?_, ?_⟩
      · rw [getArg_setArg_ne _ 2 1 _ h12]
      · rw [getArg_setArg_self _ _ _ ha2]
      · rw [getArg_setArg_ne _ 2 0 _ h02]
    · simp only [if_neg hc2, getInstrPtr_setInstr_self _ _ _ hstop,
        setInstr_getInstrPtr]
      exact ⟨trivial, trivial, trivial⟩

theorem calcStep_set_form (mb : MalBlkRecord) (i : Nat) (coerce : Nat → Coercion)
    (hmod : (getInstrPtr mb i).modId = some batcalcRef)
    (hex : ∃ f, (getInstrPtr mb i).fcnId = some f ∧ isCalcArithFcn f)
    (hargc : (getInstrPtr mb i).argc = 3) :
    coercionOptimizerCalcStep mb i coerce =
      setInstr mb i (getInstrPtr (coercionOptimizerCalcStep mb i coerce) i) := by
  have hstop : i < mb.stop :=
    lt_stop_of_modId (by rw [hmod]; exact Option.noConfusion)
  have hne : (getInstrPtr mb i).fcnId ≠ none := by
    rcases hex with ⟨f, hf, _⟩
    rw [hf]
    exact Option.noConfusion
  unfold coercionOptimizerCalcStep
  rw [if_neg (by push_neg; exact ⟨hmod, hne⟩)]
  rw [if_neg (by push_neg; exact ⟨hex, hargc⟩)]
  rw [getInstrPtr_setInstr_self _ _ _ hstop]

theorem calcStep_fields (mb : MalBlkRecord) (i : Nat) (coerce : Nat → Coercion) :
    (getInstrPtr (coercionOptimizerCalcStep mb i coerce) i).modId =
      (getInstrPtr mb i).modId ∧
    (getInstrPtr (coercionOptimizerCalcStep mb i coerce) i).fcnId =
      (getInstrPtr mb i).fcnId ∧
    (getInstrPtr (coercionOptimizerCalcStep mb i coerce) i).retc =
      (getInstrPtr mb i).retc ∧
    (getInstrPtr (coercionOptimizerCalcStep mb i coerce) i).argc =
      (getInstrPtr mb i).argc := by
  by_cases g1 : (getInstrPtr mb i).modId ≠ some batcalcRef ∨
      (getInstrPtr mb i).fcnId = none
  · rw [calcStep_if1 mb i coerce g1]
    exact ⟨rfl, rfl, rfl, rfl⟩
  · by_cases g2 : (¬∃ f, (getInstrPtr mb i).fcnId = some f ∧ isCalcArithFcn f) ∨
        (getInstrPtr mb i).argc ≠ 3
    · rw [calcStep_if2 mb i coerce g1 g2]
      exact ⟨rfl, rfl, rfl, rfl⟩
    · push_neg at g1 g2
      have hstop : i < mb.stop :=
        lt_stop_of_modId (by rw [g1.1]; exact Option.noConfusion)
      unfold coercionOptimizerCalcStep
      rw [if_neg (by push_neg; exact g1)]
      rw [if_neg (by push_neg; exact g2)]
      rw [getInstrPtr_setInstr_self _ _ _ hstop]
      split_ifs <;>
        simp [setArg_modId, setArg_fcnId, setArg_retc, setArg_argc]

theorem calcStep_instr_ne (mb : MalBlkRecord) (i : Nat) (coerce : Nat → Coercion)
    (j : Nat) (hj : j ≠ i) :
    getInstrPtr (coercionOptimizerCalcStep mb i coerce) j = getInstrPtr mb j := by
  simp only [coercionOptimizerCalcStep]
  split_ifs <;> first | rfl | exact getInstrPtr_setInstr_ne _ _ _ _ hj



theorem instr_ext (p q : InstrRecord) (hm : p.modId = q.modId)
    (hf : p.fcnId = q.fcnId) (hr : p.retc = q.retc)
    (hl : p.argc = q.argc) (h : ∀ k, k < p.argc → getArg p k = getArg q k) :
    p = q := by
  obtain ⟨m1, f1, r1, a1⟩ := p
  obtain ⟨m2, f2, r2, a2⟩ := q
  simp only [InstrRecord.argc] at hl h
  simp only at hm hf hr
  subst hm hf hr
  congr 1
  apply List.ext_getElem hl
  intro k h1 h2
  have := h k h1
  simp only [getArg] at this
  rwa [List.getD_eq_getElem?_getD, List.getD_eq_getElem?_getD,
    List.getElem?_eq_getElem h1, List.getElem?_eq_getElem h2] at this

theorem calcStep_idem (mb : MalBlkRecord) (i : Nat) (c : Nat → Coercion)
    (hok : TableOK mb c) :
    coercionOptimizerCalcStep (coercionOptimizerCalcStep mb i c) i c =
      coercionOptimizerCalcStep mb i c := by
  by_cases g1 : (getInstrPtr mb i).modId ≠ some batcalcRef ∨
      (getInstrPtr mb i).fcnId = none
  · rw [calcStep_if1 mb i c g1, calcStep_if1 mb i c g1]
  · by_cases g2 : (¬∃ f, (getInstrPtr mb i).fcnId = some f ∧ isCalcArithFcn f) ∨
        (getInstrPtr mb i).argc ≠ 3
    · rw [calcStep_if2 mb i c g1 g2, calcStep_if2 mb i c g1 g2]
    · push_neg at g1 g2
      obtain ⟨hm2, hf2, hr2, ha2⟩ := calcStep_fields mb i c
      have hvars2 : (coercionOptimizerCalcStep mb i c).vars = mb.vars :=
        calcStep_vars mb i c
      have hmod2 : (getInstrPtr (coercionOptimizerCalcStep mb i c) i).modId =
          some batcalcRef := by rw [hm2]; exact g1.1
      have hex2 : ∃ f, (getInstrPtr (coercionOptimizerCalcStep mb i c) i).fcnId =
          some f ∧ isCalcArithFcn f := by rw [hf2]; exact g2.1
      have hargc2 : (getInstrPtr (coercionOptimizerCalcStep mb i c) i).argc = 3 := by
        rw [ha2]; exact g2.2
      obtain ⟨hs1, hs2, hs0⟩ := calcStep_slots mb i c g1.1 g2.1 g2.2
      obtain ⟨hs1', hs2', hs0'⟩ :=
        calcStep_slots (coercionOptimizerCalcStep mb i c) i c hmod2 hex2 hargc2
      simp only [fun v => getVarType_congr hvars2 v] at hs1' hs2'
      have hnc1 : ¬ (getColumnType (getVarType mb
            (getArg (getInstrPtr (coercionOptimizerCalcStep mb i c) i) 1)) =
          getColumnType (getVarType mb
            (getArg (getInstrPtr (coercionOptimizerCalcStep mb i c) i) 0)) ∧
          (c (getArg (getInstrPtr (coercionOptimizerCalcStep mb i c) i) 1)).src ≠ 0 ∧
          (c (getArg (getInstrPtr (coercionOptimizerCalcStep mb i c) i) 1)).fromtype <
            getColumnType (getVarType mb
              (getArg (getInstrPtr (coercionOptimizerCalcStep mb i c) i) 0))) := by
        intro hc
        rw [hs0] at hc
        by_cases hcond1 : getColumnType (getVarType mb (getArg (getInstrPtr mb i) 1)) =
              getColumnType (getVarType mb (getArg (getInstrPtr mb i) 0)) ∧
            (c (getArg (getInstrPtr mb i) 1)).src ≠ 0 ∧
            (c (getArg (getInstrPtr mb i) 1)).fromtype <
              getColumnType (getVarType mb (getArg (getInstrPtr mb i) 0))
        · rw [hs1, if_pos hcond1] at hc
          have hft := hok (getArg (getInstrPtr mb i) 1) hcond1.2.1
          rw [hft] at hcond1
          omega
        · rw [hs1, if_neg hcond1] at hc
          exact hcond1 hc
      have hnc2 : ¬ (getColumnType (getVarType mb
            (getArg (getInstrPtr (coercionOptimizerCalcStep mb i c) i) 2)) =
          getColumnType (getVarType mb
            (getArg (getInstrPtr (coercionOptimizerCalcStep mb i c) i) 0)) ∧
          (c (getArg (getInstrPtr (coercionOptimizerCalcStep mb i c) i) 2)).src ≠ 0 ∧
          (c (getArg (getInstrPtr (coercionOptimizerCalcStep mb i c) i) 2)).fromtype <
            getColumnType (getVarType mb
              (getArg (getInstrPtr (coercionOptimizerCalcStep mb i c) i) 0))) := by
        intro hc
        rw [hs0] at hc
        by_cases hcond2 : getColumnType (getVarType mb (getArg (getInstrPtr mb i) 2)) =
              getColumnType (getVarType mb (getArg (getInstrPtr mb i) 0)) ∧
            (c (getArg (getInstrPtr mb i) 2)).src ≠ 0 ∧
            (c (getArg (getInstrPtr mb i) 2)).fromtype <
              getColumnType (getVarType mb (getArg (getInstrPtr mb i) 0))
        · rw [hs2, if_pos hcond2] at hc
          have hft := hok (getArg (getInstrPtr mb i) 2) hcond2.2.1
          rw [hft] at hcond2
          omega
        · rw [hs2, if_neg hcond2] at hc
          exact hcond2 hc
      rw [calcStep_set_form (coercionOptimizerCalcStep mb i c) i c hmod2 hex2 hargc2]
      have hinstr : getInstrPtr (coercionOptimizerCalcStep
            (coercionOptimizerCalcStep mb i c) i c) i =
          getInstrPtr (coercionOptimizerCalcStep mb i c) i := by
        obtain ⟨hm3, hf3, hr3, ha3⟩ :=
          calcStep_fields (coercionOptimizerCalcStep mb i c) i c
        apply instr_ext _ _ hm3 hf3 hr3 ha3
        intro k hk
        rw [ha3, hargc2] at hk
        interval_cases k
        · exact hs0'
        · rw [hs1', if_neg hnc1]
        · rw [hs2', if_neg hnc2]
      rw [hinstr, setInstr_getInstrPtr]



theorem step_snd_congr {mb mb' : MalBlkRecord} (i : Nat)
    (hinstr : getInstrPtr mb i = getInstrPtr mb' i)
    (hvars : mb.vars = mb'.vars) :
    (coercionOptimizerStep mb i).2 = (coercionOptimizerStep mb' i).2 := by
  have hcond : (getVarType mb (getArg (getInstrPtr mb i) 0) =
        getVarType mb (getArg (getInstrPtr mb i) 1) ∧
      (getInstrPtr mb i).fcnId =
        some (ATOMname (getVarType mb (getArg (getInstrPtr mb i) 1)))) ↔
      (getVarType mb' (getArg (getInstrPtr mb' i) 0) =
        getVarType mb' (getArg (getInstrPtr mb' i) 1) ∧
      (getInstrPtr mb' i).fcnId =
        some (ATOMname (getVarType mb' (getArg (getInstrPtr mb' i) 1)))) := by
    rw [hinstr]
    simp only [fun v => getVarType_congr hvars v]
  rcases step_snd_cases mb i with h | h <;>
    rcases step_snd_cases mb' i with h' | h'
  · rw [h, h']
  · exfalso
    have := (step_trigger_iff mb i).2 (hcond.2 ((step_trigger_iff mb' i).1 h'))
    omega
  · exfalso
    have := (step_trigger_iff mb' i).2 (hcond.1 ((step_trigger_iff mb i).1 h))
    omega
  · rw [h, h']

theorem calcStep_congr_id {mb mb' : MalBlkRecord} (i : Nat) (c : Nat → Coercion)
    (hinstr : getInstrPtr mb i = getInstrPtr mb' i)
    (hvars : mb.vars = mb'.vars)
    (hid : coercionOptimizerCalcStep mb i c = mb) :
    coercionOptimizerCalcStep mb' i c = mb' := by
  by_cases g1 : (getInstrPtr mb i).modId ≠ some batcalcRef ∨
      (getInstrPtr mb i).fcnId = none
  · exact calcStep_if1 mb' i c (by rw [← hinstr]; exact g1)
  · by_cases g2 : (¬∃ f, (getInstrPtr mb i).fcnId = some f ∧ isCalcArithFcn f) ∨
        (getInstrPtr mb i).argc ≠ 3
    · exact calcStep_if2 mb' i c (by rw [← hinstr]; exact g1)
        (by rw [← hinstr]; exact g2)
    · push_neg at g1 g2
      have hmod' : (getInstrPtr mb' i).modId = some batcalcRef := by
        rw [← hinstr]; exact g1.1
      have hex' : ∃ f, (getInstrPtr mb' i).fcnId = some f ∧ isCalcArithFcn f := by
        rw [← hinstr]; exact g2.1
      have hargc' : (getInstrPtr mb' i).argc = 3 := by
        rw [← hinstr]; exact g2.2
      have hstop' : i < mb'.stop :=
        lt_stop_of_modId (by rw [hmod']; exact Option.noConfusion)
      -- the rewritten instruction is the same on both sides
      obtain ⟨hs1, hs2, hs0⟩ := calcStep_slots mb i c g1.1 g2.1 g2.2
      obtain ⟨hs1', hs2', hs0'⟩ := calcStep_slots mb' i c hmod' hex' hargc'
      simp only [fun v => getVarType_congr hvars v, hinstr] at hs1 hs2 hs0
      obtain ⟨hm3, hf3, hr3, ha3⟩ := calcStep_fields mb i c
      obtain ⟨hm3', hf3', hr3', ha3'⟩ := calcStep_fields mb' i c
      have hinstr3 : getInstrPtr (coercionOptimizerCalcStep mb' i c) i =
          getInstrPtr (coercionOptimizerCalcStep mb i c) i := by
        apply instr_ext
        · rw [hm3, hm3', hinstr]
        · rw [hf3, hf3', hinstr]
        · rw [hr3, hr3', hinstr]
        · rw [ha3, ha3', hinstr]
        · intro k hk
          rw [ha3', hargc'] at hk
          interval_cases k
          · rw [hs0, hs0']
          · rw [hs1, hs1']
          · rw [hs2, hs2']
      rw [calcStep_set_form mb' i c hmod' hex' hargc', hinstr3, hid, hinstr,
        setInstr_getInstrPtr]

theorem recordHge_calcStep (mb : MalBlkRecord) (i : Nat)
    (c2 c : Nat → Coercion) :
    coercionRecordHge (coercionOptimizerCalcStep mb i c2) i c =
      coercionRecordHge mb i c := by
  by_cases hargc : (getInstrPtr mb i).argc = 3
  · have h5 : (getInstrPtr mb i).argc ≠ 5 := by omega
    have h5' : (getInstrPtr (coercionOptimizerCalcStep mb i c2) i).argc ≠ 5 := by
      rw [(calcStep_fields mb i c2).2.2.2]
      exact h5
    rw [recordHge_id_of_argc _ _ _ h5', recordHge_id_of_argc _ _ _ h5]
  · rw [calcStep_id_of_argc mb i c2 hargc]



theorem body_coerce (mb : MalBlkRecord) (j : Nat) (hj : 1 ≤ j) :
    (OPTcoercionBody mb (tableUpto mb j) j).coerce = tableUpto mb (j + 1) := by
  simp only [OPTcoercionBody]
  by_cases h1 : (getInstrPtr mb j).modId = none
  · rw [if_pos h1]
    show tableUpto mb j = tableUpto mb (j + 1)
    rw [tableUpto_succ mb j hj,
      recordHge_id_of_mod mb j _ (by rw [h1]; exact fun hc => Option.noConfusion hc)]
  · rw [if_neg h1]
    by_cases h2 : (getInstrPtr (coercionOptimizerCalcStep mb j
          (coercionRecordHge mb j (tableUpto mb j))) j).modId = some calcRef ∧
        (getInstrPtr (coercionOptimizerCalcStep mb j
          (coercionRecordHge mb j (tableUpto mb j))) j).argc = 2
    · rw [if_pos h2]
      show coercionRecordHge mb j (tableUpto mb j) = tableUpto mb (j + 1)
      rw [tableUpto_succ mb j hj]
    · rw [if_neg h2]
      show coercionRecordHge mb j (tableUpto mb j) = tableUpto mb (j + 1)
      rw [tableUpto_succ mb j hj]

theorem loop_of_stable :
    ∀ (fuel : Nat) (mb : MalBlkRecord) (j actions : Nat),
      (∀ m, j ≤ m → m < mb.stop → StableAt mb m) →
      OPTcoercionLoop fuel mb (tableUpto mb j) j actions = (mb, actions) := by
  intro fuel
  induction fuel with
  | zero => intro mb j actions _; rfl
  | succ n ih =>
      intro mb j actions hstable
      by_cases hj : j < mb.stop
      · obtain ⟨hMb, hC, hN, hI⟩ := hstable j (le_refl j) hj
        simp only [OPTcoercionLoop, if_pos hj, hMb, hC, hN, hI, Nat.add_zero]
        exact ih mb (j + 1) actions (fun m hm1 hm2 => hstable m (by omega) hm2)
      · simp only [OPTcoercionLoop, if_neg hj]



theorem body_eval_none (mb : MalBlkRecord) (c : Nat → Coercion) (i : Nat)
    (h1 : (getInstrPtr mb i).modId = none) :
    OPTcoercionBody mb c i = ⟨mb, c, i + 1, 0⟩ := by
  simp only [OPTcoercionBody, if_pos h1]

theorem body_eval_raw (mb : MalBlkRecord) (c : Nat → Coercion) (i : Nat)
    (h1 : (getInstrPtr mb i).modId ≠ none) :
    OPTcoercionBody mb c i =
      if (getInstrPtr (coercionOptimizerCalcStep mb i
            (coercionRecordHge mb i c)) i).modId = some calcRef ∧
         (getInstrPtr (coercionOptimizerCalcStep mb i
            (coercionRecordHge mb i c)) i).argc = 2 then
        ⟨(coercionOptimizerStep (coercionOptimizerCalcStep mb i
            (coercionRecordHge mb i c)) i).1,
         coercionRecordHge mb i c,
         if (coercionOptimizerStep (coercionOptimizerCalcStep mb i
            (coercionRecordHge mb i c)) i).2 ≠ 0 then i else i + 1,
         (coercionOptimizerStep (coercionOptimizerCalcStep mb i
            (coercionRecordHge mb i c)) i).2⟩
      else
        ⟨coercionOptimizerCalcStep mb i (coercionRecordHge mb i c),
         coercionRecordHge mb i c, i + 1, 0⟩ := by
  simp only [OPTcoercionBody, if_neg h1]

theorem StableAt_intro (mb : MalBlkRecord) (j : Nat) (hj : 1 ≤ j)
    (c' : Nat → Coercion)
    (h : OPTcoercionBody mb (tableUpto mb j) j = ⟨mb, c', j + 1, 0⟩) :
    StableAt mb j :=
  ⟨by rw [h], body_coerce mb j hj, by rw [h], by rw [h]⟩

theorem StableAt_transfer {mb mb' : MalBlkRecord} (j : Nat) (hj : 1 ≤ j)
    (hvars : mb.vars = mb'.vars)
    (hinstr : ∀ m, 1 ≤ m → m ≤ j → getInstrPtr mb m = getInstrPtr mb' m)
    (h : StableAt mb j) : StableAt mb' j := by
  have htab : tableUpto mb j = tableUpto mb' j :=
    tableUpto_congr j hvars (fun m h1 h2 => hinstr m h1 (by omega))
  have hj' : getInstrPtr mb j = getInstrPtr mb' j := hinstr j hj (le_refl j)
  obtain ⟨hMb, hC, hN, hI⟩ := h
  by_cases h1 : (getInstrPtr mb j).modId = none
  · have h1' : (getInstrPtr mb' j).modId = none := by rw [← hj']; exact h1
    exact StableAt_intro mb' j hj _ (body_eval_none mb' (tableUpto mb' j) j h1')
  · have h1' : ¬ (getInstrPtr mb' j).modId = none := by rw [← hj']; exact h1
    rw [body_eval_raw mb (tableUpto mb j) j h1] at hMb hI
    have hc2' : coercionRecordHge mb' j (tableUpto mb' j) =
        coercionRecordHge mb j (tableUpto mb j) := by
      rw [← htab]
      exact (recordHge_congr j (tableUpto mb j) hj' hvars).symm
    by_cases g2 : (getInstrPtr (coercionOptimizerCalcStep mb j
          (coercionRecordHge mb j (tableUpto mb j))) j).modId = some calcRef ∧
        (getInstrPtr (coercionOptimizerCalcStep mb j
          (coercionRecordHge mb j (tableUpto mb j))) j).argc = 2
    · rw [if_pos g2] at hMb hI
      have hmb2 : coercionOptimizerCalcStep mb j
          (coercionRecordHge mb j (tableUpto mb j)) = mb :=
        (step_no_trigger_eq _ j hI).symm.trans hMb
      rw [hmb2] at hI g2
      have hcalc' : coercionOptimizerCalcStep mb' j
          (coercionRecordHge mb' j (tableUpto mb' j)) = mb' := by
        rw [hc2']
        exact calcStep_congr_id j _ hj' hvars hmb2
      have hstep' : (coercionOptimizerStep mb' j).2 = 0 := by
        rw [← step_snd_congr j hj' hvars]
        exact hI
      apply StableAt_intro mb' j hj (coercionRecordHge mb' j (tableUpto mb' j))
      rw [body_eval_raw mb' (tableUpto mb' j) j h1', hcalc']
      have g2' : (getInstrPtr mb' j).modId = some calcRef ∧
          (getInstrPtr mb' j).argc = 2 := by
        rw [← hj']
        exact g2
      rw [if_pos g2', step_no_trigger_eq mb' j hstep', hstep']
      simp
    · rw [if_neg g2] at hMb
      have hMb2 : coercionOptimizerCalcStep mb j
          (coercionRecordHge mb j (tableUpto mb j)) = mb := hMb
      rw [hMb2] at g2
      have hcalc' : coercionOptimizerCalcStep mb' j
          (coercionRecordHge mb' j (tableUpto mb' j)) = mb' := by
        rw [hc2']
        exact calcStep_congr_id j _ hj' hvars hMb2
      apply StableAt_intro mb' j hj (coercionRecordHge mb' j (tableUpto mb' j))
      rw [body_eval_raw mb' (tableUpto mb' j) j h1', hcalc']
      have g2' : ¬ ((getInstrPtr mb' j).modId = some calcRef ∧
          (getInstrPtr mb' j).argc = 2) := by
        rw [← hj']
        exact g2
      rw [if_neg g2']



theorem step_untouched_before (mb : MalBlkRecord) (i : Nat)
    (h : (coercionOptimizerStep mb i).2 = 1) (j : Nat) (hj : j < i) :
    getInstrPtr (coercionOptimizerStep mb i).1 j = getInstrPtr mb j := by
  rw [step_fst_of_removed mb i h, mk_getInstrPtr,
    removeAndPatch_getD_lt _ _ _ _ _ hj]
  rfl

theorem step_stop_removed (mb : MalBlkRecord) (i : Nat)
    (h : (coercionOptimizerStep mb i).2 = 1) (hi : i < mb.stop) :
    (coercionOptimizerStep mb i).1.stop = mb.stop - 1 := by
  rw [step_fst_of_removed mb i h, mk_stop, removeAndPatch_length _ _ _ _ hi]
  rfl

theorem tableUpto_calcStep (mb : MalBlkRecord) (i : Nat) (c : Nat → Coercion) :
    tableUpto (coercionOptimizerCalcStep mb i c) i = tableUpto mb i :=
  tableUpto_congr i (calcStep_vars mb i c)
    (fun m _ hm2 => calcStep_instr_ne mb i c m (by omega))

theorem StableAt_of_body (mb : MalBlkRecord) (i : Nat) (hi : 1 ≤ i)
    (hok : TableOK mb (tableUpto mb i))
    (hinc : (OPTcoercionBody mb (tableUpto mb i) i).inc = 0) :
    StableAt (OPTcoercionBody mb (tableUpto mb i) i).mb i := by
  by_cases h1 : (getInstrPtr mb i).modId = none
  · rw [body_eval_none mb (tableUpto mb i) i h1]
    exact StableAt_intro mb i hi _ (body_eval_none mb (tableUpto mb i) i h1)
  · rw [body_eval_raw mb (tableUpto mb i) i h1] at hinc ⊢
    have hrec2 : coercionRecordHge (coercionOptimizerCalcStep mb i
          (coercionRecordHge mb i (tableUpto mb i))) i
        (tableUpto (coercionOptimizerCalcStep mb i
          (coercionRecordHge mb i (tableUpto mb i))) i) =
        coercionRecordHge mb i (tableUpto mb i) := by
      rw [tableUpto_calcStep]
      exact recordHge_calcStep mb i _ (tableUpto mb i)
    have hok2 : TableOK mb (coercionRecordHge mb i (tableUpto mb i)) :=
      TableOK_record mb i hok
    have hidem : coercionOptimizerCalcStep (coercionOptimizerCalcStep mb i
          (coercionRecordHge mb i (tableUpto mb i))) i
        (coercionRecordHge mb i (tableUpto mb i)) =
        coercionOptimizerCalcStep mb i (coercionRecordHge mb i (tableUpto mb i)) :=
      calcStep_idem mb i _ hok2
    have h12 : (getInstrPtr (coercionOptimizerCalcStep mb i
        (coercionRecordHge mb i (tableUpto mb i))) i).modId ≠ none := by
      rw [(calcStep_fields mb i _).1]
      exact h1
    by_cases g2 : (getInstrPtr (coercionOptimizerCalcStep mb i
          (coercionRecordHge mb i (tableUpto mb i))) i).modId = some calcRef ∧
        (getInstrPtr (coercionOptimizerCalcStep mb i
          (coercionRecordHge mb i (tableUpto mb i))) i).argc = 2
    · rw [if_pos g2] at hinc ⊢
      have hstep0 : (coercionOptimizerStep (coercionOptimizerCalcStep mb i
          (coercionRecordHge mb i (tableUpto mb i))) i).2 = 0 := hinc
      have hstep1 := step_no_trigger_eq _ i hstep0
      show StableAt (coercionOptimizerStep (coercionOptimizerCalcStep mb i
          (coercionRecordHge mb i (tableUpto mb i))) i).1 i
      rw [hstep1]
      apply StableAt_intro _ i hi (coercionRecordHge mb i (tableUpto mb i))
      rw [body_eval_raw _ _ i h12, hrec2, hidem, if_pos g2, hstep1, hstep0]
      simp
    · rw [if_neg g2] at hinc ⊢
      show StableAt (coercionOptimizerCalcStep mb i
          (coercionRecordHge mb i (tableUpto mb i))) i
      apply StableAt_intro _ i hi (coercionRecordHge mb i (tableUpto mb i))
      rw [body_eval_raw _ _ i h12, hrec2, hidem, if_neg g2]

theorem body_untouched_before (mb : MalBlkRecord) (c : Nat → Coercion) (i : Nat)
    (j : Nat) (hj : j < i) :
    getInstrPtr (OPTcoercionBody mb c i).mb j = getInstrPtr mb j := by
  by_cases h1 : (getInstrPtr mb i).modId = none
  · rw [body_eval_none mb c i h1]
  · rw [body_eval_raw mb c i h1]
    by_cases g2 : (getInstrPtr (coercionOptimizerCalcStep mb i
          (coercionRecordHge mb i c)) i).modId = some calcRef ∧
        (getInstrPtr (coercionOptimizerCalcStep mb i
          (coercionRecordHge mb i c)) i).argc = 2
    · rw [if_pos g2]
      show getInstrPtr (coercionOptimizerStep (coercionOptimizerCalcStep mb i
          (coercionRecordHge mb i c)) i).1 j = getInstrPtr mb j
      rcases step_snd_cases (coercionOptimizerCalcStep mb i
          (coercionRecordHge mb i c)) i with h | h
      · rw [step_no_trigger_eq _ _ h]
        exact calcStep_instr_ne mb i _ j (by omega)
      · rw [step_untouched_before _ _ h j hj]
        exact calcStep_instr_ne mb i _ j (by omega)
    · rw [if_neg g2]
      exact calcStep_instr_ne mb i _ j (by omega)



theorem loop_stabilizes :
    ∀ (fuel : Nat) (mb : MalBlkRecord) (i actions : Nat),
      mb.stop - i ≤ fuel → 1 ≤ i →
      TableOK mb (tableUpto mb i) →
      (∀ j, 1 ≤ j → j < i → j < mb.stop → StableAt mb j) →
      ∀ j, 1 ≤ j →
        j < (OPTcoercionLoop fuel mb (tableUpto mb i) i actions).1.stop →
        StableAt (OPTcoercionLoop fuel mb (tableUpto mb i) i actions).1 j := by
  intro fuel
  induction fuel with
  | zero =>
      intro mb i actions hf hi hok hpre j hj1 hj2
      simp only [OPTcoercionLoop] at hj2 ⊢
      exact hpre j hj1 (by omega) hj2
  | succ n ih =>
      intro mb i actions hf hi hok hpre j hj1 hj2
      by_cases hi2 : i < mb.stop
      · simp only [OPTcoercionLoop, if_pos hi2] at hj2 ⊢
        by_cases h1 : (getInstrPtr mb i).modId = none
        · rw [body_eval_none mb (tableUpto mb i) i h1] at hj2 ⊢
          dsimp only at hj2 ⊢
          have e1 : tableUpto mb i = tableUpto mb (i + 1) := by
            rw [tableUpto_succ mb i hi, recordHge_id_of_mod mb i _
              (by rw [h1]; exact fun hc => Option.noConfusion hc)]
          rw [e1] at hj2 ⊢
          refine ih mb (i + 1) (actions + 0) (by omega) (by omega)
            (by rw [← e1]; exact hok) ?_ j hj1 hj2
          intro m hm1 hm2 hm3
          by_cases hmi : m < i
          · exact hpre m hm1 hmi hm3
          · have hm : m = i := by omega
            subst hm
            exact StableAt_intro mb m hi _
              (body_eval_none mb (tableUpto mb m) m h1)
        · by_cases g2 : (getInstrPtr (coercionOptimizerCalcStep mb i
              (coercionRecordHge mb i (tableUpto mb i))) i).modId =
                some calcRef ∧
              (getInstrPtr (coercionOptimizerCalcStep mb i
              (coercionRecordHge mb i (tableUpto mb i))) i).argc = 2
          · rcases step_snd_cases (coercionOptimizerCalcStep mb i
                (coercionRecordHge mb i (tableUpto mb i))) i with hs | hs
            · -- calc-gate taken but the eliminator does not trigger
              have seq : OPTcoercionBody mb (tableUpto mb i) i =
                  ⟨coercionOptimizerCalcStep mb i
                     (coercionRecordHge mb i (tableUpto mb i)),
                   coercionRecordHge mb i (tableUpto mb i), i + 1, 0⟩ := by
                rw [body_eval_raw mb (tableUpto mb i) i h1, if_pos g2,
                  step_no_trigger_eq _ _ hs, hs]
                simp
              rw [seq] at hj2 ⊢
              dsimp only at hj2 ⊢
              have htu : coercionRecordHge mb i (tableUpto mb i) =
                  tableUpto (coercionOptimizerCalcStep mb i
                    (coercionRecordHge mb i (tableUpto mb i))) (i + 1) := by
                rw [tableUpto_succ _ i hi, tableUpto_calcStep,
                  recordHge_calcStep]
              nth_rewrite 2 [htu] at hj2
              nth_rewrite 2 [htu]
              refine ih (coercionOptimizerCalcStep mb i
                  (coercionRecordHge mb i (tableUpto mb i))) (i + 1)
                  (actions + 0) ?_ (by omega) ?_ ?_ j hj1 hj2
              · have := calcStep_stop mb i (coercionRecordHge mb i (tableUpto mb i))
                omega
              · rw [← htu]
                exact TableOK_congr (calcStep_vars mb i _).symm
                  (TableOK_record mb i hok)
              · intro m hm1 hm2 hm3
                by_cases hmi : m < i
                · refine StableAt_transfer m hm1 (calcStep_vars mb i _).symm
                    (fun k hk1 hk2 => (calcStep_instr_ne mb i _ k (by omega)).symm)
                    (hpre m hm1 hmi (by omega))
                · have hm : m = i := by omega
                  subst hm
                  have hb := StableAt_of_body mb m hi hok (by rw [seq])
                  rw [seq] at hb
                  exact hb
            · -- the eliminator removes the instruction
              have hmodcalc : (getInstrPtr mb i).modId = some calcRef := by
                rw [← (calcStep_fields mb i (coercionRecordHge mb i
                  (tableUpto mb i))).1]
                exact g2.1
              have hargc2 : (getInstrPtr mb i).argc = 2 := by
                rw [← (calcStep_fields mb i (coercionRecordHge mb i
                  (tableUpto mb i))).2.2.2]
                exact g2.2
              have hcalcid : coercionOptimizerCalcStep mb i
                  (coercionRecordHge mb i (tableUpto mb i)) = mb :=
                calcStep_id_of_argc mb i _ (by omega)
              have hc2id : coercionRecordHge mb i (tableUpto mb i) =
                  tableUpto mb i :=
                recordHge_id_of_mod mb i _ (by
                  rw [hmodcalc]
                  intro hc
                  exact absurd (Option.some.inj hc) (by decide))
              rw [hcalcid] at hs g2
              have seq : OPTcoercionBody mb (tableUpto mb i) i =
                  ⟨(coercionOptimizerStep mb i).1, tableUpto mb i, i, 1⟩ := by
                rw [body_eval_raw mb (tableUpto mb i) i h1, hcalcid, hc2id,
                  if_pos g2, hs]
                simp
              rw [seq] at hj2 ⊢
              dsimp only at hj2 ⊢
              have e3 : tableUpto (coercionOptimizerStep mb i).1 i =
                  tableUpto mb i :=
                tableUpto_congr i (step_vars mb i)
                  (fun m hm1 hm2 => step_untouched_before mb i hs m (by omega))
              rw [← e3] at hj2 ⊢
              have hstop3 : (coercionOptimizerStep mb i).1.stop = mb.stop - 1 :=
                step_stop_removed mb i hs hi2
              refine ih (coercionOptimizerStep mb i).1 i (actions + 1)
                (by omega) hi ?_ ?_ j hj1 hj2
              · rw [e3]
                exact TableOK_congr (step_vars mb i).symm hok
              · intro m hm1 hm2 hm3
                exact StableAt_transfer m hm1 (step_vars mb i).symm
                  (fun k hk1 hk2 => (step_untouched_before mb i hs k (by omega)).symm)
                  (hpre m hm1 hm2 (by omega))
          · -- not a calc instruction with two argument slots
            have seq : OPTcoercionBody mb (tableUpto mb i) i =
                ⟨coercionOptimizerCalcStep mb i
                   (coercionRecordHge mb i (tableUpto mb i)),
                 coercionRecordHge mb i (tableUpto mb i), i + 1, 0⟩ := by
              rw [body_eval_raw mb (tableUpto mb i) i h1, if_neg g2]
            rw [seq] at hj2 ⊢
            dsimp only at hj2 ⊢
            have htu : coercionRecordHge mb i (tableUpto mb i) =
                tableUpto (coercionOptimizerCalcStep mb i
                  (coercionRecordHge mb i (tableUpto mb i))) (i + 1) := by
              rw [tableUpto_succ _ i hi, tableUpto_calcStep, recordHge_calcStep]
            nth_rewrite 2 [htu] at hj2
            nth_rewrite 2 [htu]
            refine ih (coercionOptimizerCalcStep mb i
                (coercionRecordHge mb i (tableUpto mb i))) (i + 1)
                (actions + 0) ?_ (by omega) ?_ ?_ j hj1 hj2
            · have := calcStep_stop mb i (coercionRecordHge mb i (tableUpto mb i))
              omega
            · rw [← htu]
              exact TableOK_congr (calcStep_vars mb i _).symm
                (TableOK_record mb i hok)
            · intro m hm1 hm2 hm3
              by_cases hmi : m < i
              · refine StableAt_transfer m hm1 (calcStep_vars mb i _).symm
                  (fun k hk1 hk2 => (calcStep_instr_ne mb i _ k (by omega)).symm)
                  (hpre m hm1 hmi (by omega))
              · have hm : m = i := by omega
                subst hm
                have hb := StableAt_of_body mb m hi hok (by rw [seq])
                rw [seq] at hb
                exact hb
      · simp only [OPTcoercionLoop, if_neg hi2] at hj2 ⊢
        exact hpre j hj1 (by omega) hj2

/-- Claim C8: for every program reachable as the output of one invocation
of the pass, running the pass a second time leaves the program unchanged
and returns an action count of 0 (the pass is idempotent). -/
theorem pass_idempotent (mb : MalBlkRecord) :
    OPTcoercionImplementation (OPTcoercionImplementation mb true).1 true =
      ((OPTcoercionImplementation mb true).1, 0) := by
  have hstable : ∀ j, 1 ≤ j →
      j < (OPTcoercionImplementation mb true).1.stop →
      StableAt (OPTcoercionImplementation mb true).1 j := by
    show ∀ j, 1 ≤ j →
        j < (OPTcoercionLoop mb.stop mb zeroTable 1 0).1.stop →
        StableAt (OPTcoercionLoop mb.stop mb zeroTable 1 0).1 j
    have hz : zeroTable = tableUpto mb 1 := rfl
    rw [hz]
    exact loop_stabilizes mb.stop mb 1 0 (by omega) (le_refl 1)
      (by rw [← hz]; exact TableOK_zero mb)
      (fun j h1 h2 h3 => absurd h2 (by omega))
  show OPTcoercionLoop (OPTcoercionImplementation mb true).1.stop
      (OPTcoercionImplementation mb true).1 zeroTable 1 0 =
      ((OPTcoercionImplementation mb true).1, 0)
  have hz : zeroTable = tableUpto (OPTcoercionImplementation mb true).1 1 := rfl
  rw [hz]
  exact loop_of_stable _ _ 1 0 (fun m hm1 hm2 => hstable m hm1 hm2)


end OptCoercion
